import Mathlib

/-!
# klogcat: capture-and-rotate loop

A shallow embedding of `klogcat.cpp`: the globals become the fields of `State`,
the file system is a map from path names to file contents, and every answer the
operating system gives during one pass of the capture loop is an explicit input
(`Cycle`).  Diagnostics written with `perror`/`fprintf(stderr, ..)` are not
modelled.  A C string is a Lean `String` whose characters stand for bytes.
`off_t` is taken to be 64 bits wide, so the byte counter (bounded by the
threshold plus one chunk) never wraps and is an unbounded `Int` here.
-/

namespace Klogcat

/-! ## Data model -/

/-- Content of a regular file / bytes moved by one `read` or `write`. -/
abbrev Bytes := List Char

/-- The directory: which path names hold a regular file, and its content. -/
abbrev Files := String → Option Bytes

/-- What `g_outFD` refers to. `invalid` is a negative descriptor;
`stdout` is `STDOUT_FILENO`; `file p` is a descriptor opened on path `p`. -/
inductive Fd where
  | invalid
  | stdout
  | file (path : String)
  deriving DecidableEq, Repr

/-- Calls issued by the program, in order: an instrumentation of the code,
used to state properties about whole runs. -/
inductive Event where
  | startMarker (bytes : Bytes)  -- the `write` inside `maybe_print_start`
  | chunk (bytes : Bytes)        -- the `write` of the loop body
  | rotateLogs                   -- a call of `rotateLogs`
  deriving DecidableEq, Repr

/-- The program's globals (and the function-local statics), the file system,
and the log of calls issued so far. -/
structure State where
  g_outputFileName : String
  g_logRotateSizeKBytes : Int
  g_maxRotatedLogs : Int
  g_outFD : Fd
  g_outByteCount : Int
  g_printed : Bool
  /-- The `static int err_nr` of `do_klogging_ksmg`. -/
  err_nr : Int
  /-- The `static int err_nr` of `do_klogging_dmesg`. -/
  err_nr_dmesg : Int
  files : Files
  stdout : Bytes
  trace : List Event

/-- Where a pass of the program ends up: still running, terminated by `exit`,
or still inside a `FAILURE_RETRY` loop when the recorded answers end. -/
inductive Outcome where
  | running (s : State)
  | exited (status : Int) (s : State)
  | retrying (s : State)

/-- The state carried by an outcome. -/
def Outcome.state : Outcome → State
  | .running s => s
  | .exited _ s => s
  | .retrying s => s

/-- Whether the process is still alive and past the pass. -/
def Outcome.isRunning : Outcome → Bool
  | .running _ => true
  | _ => false

/-- The argument handed to `exit`, if the process terminated. -/
def Outcome.exitCode : Outcome → Option Int
  | .exited c _ => some c
  | _ => none

/-- The status the parent observes for `exit(code)`: the low eight bits. -/
def exitStatus (code : Int) : Int := code % 256

/-! ## System calls -/

/-- One attempt of a system call: its return value and whether `errno` is
`EINTR` afterwards. -/
structure Attempt where
  rc : Int
  eintr : Bool
  deriving DecidableEq, Repr

/-- The `FAILURE_RETRY(exp)` loop: re-issue the call while it returns -1 with
`EINTR`; the value of the first other attempt.  `none`: every recorded attempt
was interrupted, the loop is still turning. -/
def FAILURE_RETRY : List Attempt → Option Int
  | [] => none
  | a :: rest => if a.rc = -1 ∧ a.eintr = true then FAILURE_RETRY rest else some a.rc

/-- The call `open(pathname, O_WRONLY | O_APPEND | O_CREAT, S_IRUSR | S_IWUSR)`:
when the call succeeds an absent file is created empty, an existing one is
left as it is (there is no `O_TRUNC`). -/
def openLogFile (files : Files) (pathname : String) (ok : Bool) : Files × Fd :=
  if ok then
    (fun p => if p = pathname then some ((files pathname).getD []) else files p, Fd.file pathname)
  else (files, Fd.invalid)

/-- The call `rename(oldpath, newpath)`: fails (directory unchanged) when `oldpath`
does not exist (`ENOENT`) or when the system refuses for another reason
(`denied`); otherwise `newpath` is replaced by the file and `oldpath` is gone. -/
def rename (files : Files) (oldpath newpath : String) (denied : Bool) : Files :=
  match files oldpath with
  | none => files
  | some content =>
    if denied then files
    else if oldpath = newpath then files
    else fun p => if p = newpath then some content else if p = oldpath then none else files p

/-- The call `write(fd, buf, n)` returning `rc >= 0`: the first `rc` bytes of `buf`
are appended to what `fd` refers to. -/
def sysWrite (s : State) (fd : Fd) (buf : Bytes) (rc : Int) : State :=
  match fd with
  | .invalid => s
  | .stdout => { s with stdout := s.stdout ++ buf.take rc.toNat }
  | .file path =>
    { s with files := fun p =>
        if p = path then some ((s.files path).getD [] ++ buf.take rc.toNat) else s.files p }

/-- The `st_size` of a file. -/
def fileSize (content : Bytes) : Int := (content.length : Int)

/-! ## The program -/

/-- The name built by `asprintf(&file, "%s.%d", g_outputFileName, i)`. -/
def rotatedName (name : String) (i : Nat) : String := name ++ "." ++ Nat.repr i

/-- The name `file0` of `rotateLogs` for slot `i`: the bare name when
`i - 1 == 0`, else `<name>.<i-1>`. -/
def sourceName (name : String) (i : Nat) : String :=
  if i - 1 = 0 then name else rotatedName name (i - 1)

/-- The `for (int i = g_maxRotatedLogs; i > 0; i--)` loop of `rotateLogs`,
entered with `i`: renames `file0` to `file1` for `i`, `i-1`, .., `1`.
`denied i` tells whether the system refuses the rename of slot `i`. -/
def shiftLogs (name : String) (denied : Nat → Bool) : Nat → Files → Files
  | 0, files => files
  | i + 1, files =>
    shiftLogs name denied i
      (rename files (sourceName name (i + 1)) (rotatedName name (i + 1)) (denied (i + 1)))

/-- The function `setupOutput()`. `openOk`: whether `open` succeeds. -/
def setupOutput (s : State) (openOk : Bool) : Outcome :=
  if s.g_outputFileName.length = 0 then
    .running { s with g_outFD := Fd.stdout }
  else
    let r := openLogFile s.files s.g_outputFileName openOk
    if r.2 = Fd.invalid then .exited (-1) { s with files := r.1, g_outFD := r.2 }
    else
      .running { s with
        files := r.1, g_outFD := r.2,
        g_outByteCount := fileSize ((r.1 s.g_outputFileName).getD []) }

/-- The function `rotateLogs()`. `denied`: which renames the system refuses;
`reopenOk`: whether the final `openLogFile` succeeds.  The `close(g_outFD)` has
no effect on the modelled state. -/
def rotateLogs (s : State) (denied : Nat → Bool) (reopenOk : Bool) : Outcome :=
  let s := { s with trace := s.trace ++ [Event.rotateLogs] }
  if s.g_outputFileName.length = 0 then .running s
  else
    let shifted := shiftLogs s.g_outputFileName denied s.g_maxRotatedLogs.toNat s.files
    let r := openLogFile shifted s.g_outputFileName reopenOk
    if r.2 = Fd.invalid then .exited (-1) { s with files := r.1, g_outFD := r.2 }
    else .running { s with files := r.1, g_outFD := r.2, g_outByteCount := 0 }

/-- The text `snprintf(buf, 1024, "\n--------- beginning of %s\n", name)`
leaves in `buf`. -/
def startBanner (name : String) : Bytes :=
  (("\n--------- beginning of " ++ name ++ "\n").toList).take 1023

/-- The function `maybe_print_start()`. `rc`: what the `write` of the banner
returns. -/
def maybe_print_start (s : State) (rc : Int) : Outcome :=
  if s.g_printed = false then
    let s := { s with g_printed := true }
    if rc < 0 then .exited (-1) s
    else
      let buf := startBanner s.g_outputFileName
      let s := sysWrite s s.g_outFD buf rc
      .running { s with trace := s.trace ++ [Event.startMarker (buf.take rc.toNat)] }
  else .running s

/-- The answers of the operating system during one pass of the `while (1)`
body of `do_klogging_ksmg`. -/
structure Cycle where
  /-- Results of the successive `read(kmsg_fd, buff, sizeof(buff))` calls. -/
  readAttempts : List Attempt
  /-- What the kernel stored in `buff`. -/
  buff : Bytes
  /-- After an end-of-file: whether `open("/proc/kmsg")` succeeds again. -/
  kmsgOpenOk : Bool
  /-- Result of the `write` in `maybe_print_start`, if it is issued. -/
  markerWrite : Int
  /-- Results of the successive `write(g_outFD, buff, count)` calls. -/
  writeAttempts : List Attempt
  /-- Whether `chmod(g_outputFileName, 0666)` succeeds. -/
  chmodOk : Bool
  /-- Which renames of a rotation the system refuses. -/
  renameDenied : Nat → Bool
  /-- Whether `rotateLogs` can reopen the output file. -/
  reopenOk : Bool

/-- Lines 275-282: the `chmod` and the failure count. -/
def chmodStep (s : State) (chmodOk : Bool) : Outcome :=
  if chmodOk then .running s
  else
    let s1 := { s with err_nr := s.err_nr + 1 }
    if s.err_nr > 10 then .exited (-1) s1 else .running s1

/-- Lines 284-286: the rotation test. -/
def rotateIfDue (s : State) (denied : Nat → Bool) (reopenOk : Bool) : Outcome :=
  if s.g_logRotateSizeKBytes > 0
      ∧ Int.tdiv s.g_outByteCount 1024 ≥ s.g_logRotateSizeKBytes then
    rotateLogs s denied reopenOk
  else .running s

/-- Lines 265-273 once the `write` has returned `byteWritten >= 0`: the file
grows by the accepted bytes and the counter by `byteWritten`. -/
def writeChunk (s : State) (buff : Bytes) (count byteWritten : Int) : State :=
  let s2 := sysWrite s s.g_outFD (buff.take count.toNat) byteWritten
  { s2 with
    trace := s2.trace ++ [Event.chunk ((buff.take count.toNat).take byteWritten.toNat)],
    g_outByteCount := s2.g_outByteCount + byteWritten }

/-- One pass of the `while (1)` body of `do_klogging_ksmg` (an end-of-file
pass includes the `goto retry` and the reopening of `/proc/kmsg`).  The final
`memset` only clears the buffer, which the next `read` fills again. -/
def loopBody (s : State) (c : Cycle) : Outcome :=
  match FAILURE_RETRY c.readAttempts with
  | none => .retrying s
  | some count =>
    if count < 0 then .exited (-1) s
    else if count = 0 then
      if c.kmsgOpenOk then .running s else .exited (-1) s
    else
      match maybe_print_start s c.markerWrite with
      | .running s1 =>
        match FAILURE_RETRY c.writeAttempts with
        | none => .retrying s1
        | some byteWritten =>
          if byteWritten < 0 then .exited (-1) s1
          else
            match chmodStep (writeChunk s1 c.buff count byteWritten) c.chmodOk with
            | .running s4 => rotateIfDue s4 c.renameDenied c.reopenOk
            | o => o
      | o => o

/-- The loop of `do_klogging_ksmg` over a recorded sequence of passes; it
stops at the first pass that does not leave the process running. -/
def runLoop (s : State) : List Cycle → Outcome
  | [] => .running s
  | c :: rest =>
    match loopBody s c with
    | .running s1 => runLoop s1 rest
    | o => o

/-- The function `do_klogging_ksmg()`: open `/proc/kmsg` (`kmsgOk`), then loop. -/
def do_klogging_ksmg (s : State) (kmsgOk : Bool) (cycles : List Cycle) : Outcome :=
  if kmsgOk then runLoop s cycles else .exited (-1) s

/-- The answers of the operating system during one pass of the loop of
`do_klogging_dmesg`. -/
structure DmesgCycle where
  /-- What `dmesg -c` printed. -/
  drained : Bytes
  /-- What the command line does to the directory when the file name is not
  one plain word for the shell (it is pasted into the line unquoted). -/
  shell : Files → Files
  chmodOk : Bool
  renameDenied : Nat → Bool
  reopenOk : Bool

/-- The call `stat(path, &info)`: the size of the file, `none` when the call
fails (no file at `path`; the empty path names no file). -/
def stat (files : Files) (path : String) : Option Int :=
  if path.length = 0 then none else (files path).map fileSize

/-- Characters that the shell leaves as they are inside a word. -/
def plainChar (c : Char) : Bool :=
  c.isAlphanum || c = '/' || c = '.' || c = '_' || c = '-'

/-- Whether a file name, pasted unquoted into a command line, reaches the
shell as one plain word. -/
def shellPlain (name : String) : Bool :=
  decide (name.length ≠ 0) && name.toList.all plainChar

/-- The call `system("dmesg -c >> <name>")` with the name pasted in by
`sprintf(cmd, "dmesg -c >> %s", g_outputFileName)`: for a name that is one
plain word the shell appends what `dmesg -c` printed to that file, creating it
if need be; for any other name (empty, or holding blanks or characters the
shell interprets) the effect is whatever the shell makes of the line. -/
def drainTo (files : Files) (name : String) (drained : Bytes) (shell : Files → Files) : Files :=
  if shellPlain name = true then
    fun p => if p = name then some ((files name).getD [] ++ drained) else files p
  else shell files

/-- One pass of the `while (1)` body of `do_klogging_dmesg`. -/
def dmesgBody (s : State) (c : DmesgCycle) : Outcome :=
  let s1 := { s with files := drainTo s.files s.g_outputFileName c.drained c.shell }
  let afterChmod : Outcome :=
    if c.chmodOk then .running s1
    else
      let s2 := { s1 with err_nr_dmesg := s1.err_nr_dmesg + 1 }
      if s1.err_nr_dmesg > 10 then .exited (-1) s2 else .running s2
  match afterChmod with
  | .running s3 =>
    match stat s3.files s3.g_outputFileName with
    | some size =>
      if s3.g_logRotateSizeKBytes > 0 ∧ Int.tdiv size 1024 ≥ s3.g_logRotateSizeKBytes then
        rotateLogs s3 c.renameDenied c.reopenOk
      else .running s3
    | none => .running s3
  | o => o

/-- The program start of `main` after argument parsing: `setupOutput()`
followed by the logger selected by `setLogger()`. -/
def klogcat (s : State) (openOk kmsgOk : Bool) (cycles : List Cycle) : Outcome :=
  match setupOutput s openOk with
  | .running s1 => do_klogging_ksmg s1 kmsgOk cycles
  | o => o

/-- The globals as the program text initialises them, for a parsed
configuration and a directory. -/
def initState (name : String) (rotateKB maxLogs : Int) (files : Files) : State :=
  { g_outputFileName := name, g_logRotateSizeKBytes := rotateKB, g_maxRotatedLogs := maxLogs,
    g_outFD := Fd.invalid, g_outByteCount := 0, g_printed := false, err_nr := 0,
    err_nr_dmesg := 0, files := files, stdout := [], trace := [] }

/-! ## Vocabulary of the specification -/

/-- The rotation predicate in the words of the specification: true iff the
threshold is positive and `bytesWritten / 1024` (floor) reaches it. -/
def shouldRotate (bytesWritten thresholdKB : Int) : Bool :=
  decide (thresholdKB > 0 ∧ bytesWritten / 1024 ≥ thresholdKB)

/-- Number of `rotateLogs` calls in a log of calls. -/
def rotations (tr : List Event) : Nat := tr.count Event.rotateLogs

/-- A chunk cycle whose system calls all succeed at the first attempt:
`count` bytes read into `buff`, `written` of them written, the banner (if it
is due) written in full. -/
def okCycle (name : String) (buff : Bytes) (count written : Int) : Cycle :=
  { readAttempts := [⟨count, false⟩], buff := buff, kmsgOpenOk := true,
    markerWrite := (startBanner name).length, writeAttempts := [⟨written, false⟩],
    chmodOk := true, renameDenied := fun _ => false, reopenOk := true }

/-- The `i`-th member of the file family: the active file for `0`, else
`<name>.<i>`. -/
def slot (name : String) (i : Nat) : String := if i = 0 then name else rotatedName name i

/-- How many of `<name>`, `<name>.1`, .., `<name>.<n>` exist. -/
def familyCount (files : Files) (name : String) (n : Nat) : Nat :=
  ((List.range (n + 1)).filter (fun i => (files (slot name i)).isSome)).length

/-- Value of a string of decimal digits. -/
def digitsValue (cs : List Char) : Nat := cs.foldl (fun a c => 10 * a + (c.toNat - 48)) 0

/-- Whether the pass reads a chunk (a positive `read` result). -/
def readsChunk (c : Cycle) : Bool :=
  match FAILURE_RETRY c.readAttempts with
  | some count => decide (0 < count)
  | none => false

/-- The value of `byteWritten` in a pass: what the chunk `write` returns when
a chunk was read, else nothing. -/
def bytesWritten (c : Cycle) : Int :=
  match FAILURE_RETRY c.readAttempts with
  | some count => if 0 < count then (FAILURE_RETRY c.writeAttempts).getD 0 else 0
  | none => 0

/-- Bytes written by the chunk writes of a sequence of passes. -/
def totalWritten (cs : List Cycle) : Int := (cs.map bytesWritten).sum

/-- The bytes the chunk `write` of a pass appends: the first `byteWritten` of
the `count` bytes read. -/
def chunkData (c : Cycle) : Bytes :=
  match FAILURE_RETRY c.readAttempts, FAILURE_RETRY c.writeAttempts with
  | some count, some byteWritten => (c.buff.take count.toNat).take byteWritten.toNat
  | _, _ => []

/-- The bytes the banner `write` of a pass appends, given the flag `g_printed`
before the pass. -/
def markerBytes (printed : Bool) (name : String) (c : Cycle) : Bytes :=
  if printed = true then [] else (startBanner name).take c.markerWrite.toNat

/-- The directory after `bytes` were appended to the file at `path`. -/
def appendTo (files : Files) (path : String) (bytes : Bytes) : Files :=
  fun p => if p = path then some ((files path).getD [] ++ bytes) else files p

/-- The directory after the shift of `rotateLogs` and the reopening of the
active file. -/
def reopenedShift (files : Files) (name : String) (denied : Nat → Bool) (n : Nat) : Files :=
  fun p => if p = name then some ((shiftLogs name denied n files name).getD [])
    else shiftLogs name denied n files p

/-- The file family read as one stream, oldest file first: `<name>.<n>`, ..,
`<name>.1`, `<name>`; an absent file counts as empty. -/
def familyStream (files : Files) (name : String) : Nat → Bytes
  | 0 => (files name).getD []
  | n + 1 => (files (rotatedName name (n + 1))).getD [] ++ familyStream files name n

/-- The bytes the writes of a sequence of passes append to the output, in
order, given the flag `g_printed` before the first pass. -/
def emitted (name : String) : Bool → List Cycle → Bytes
  | _, [] => []
  | printed, c :: rest =>
    if readsChunk c = true then
      markerBytes printed name c ++ chunkData c ++ emitted name true rest
    else emitted name printed rest

/-- The bytes of all chunk writes of a sequence of passes, in order. -/
def allChunkData (cs : List Cycle) : Bytes := ((cs.filter readsChunk).map chunkData).flatten

/-- The banner `write` a pass issues from state `s`, if any. -/
def markerEvents (s : State) (c : Cycle) : List Event :=
  if s.g_printed = true then []
  else [Event.startMarker ((startBanner s.g_outputFileName).take c.markerWrite.toNat)]

/-- A chunk pass in which every call succeeds except the `chmod`. -/
def chmodFailing (c : Cycle) : Bool :=
  readsChunk c && decide (0 ≤ c.markerWrite) &&
    (match FAILURE_RETRY c.writeAttempts with
     | some w => decide (0 ≤ w)
     | none => false) &&
    !c.chmodOk && c.reopenOk

/-- Every chunk pass of the sequence ends with the cumulative size, counted
from `acc`, below `1024 * T`. -/
def staysBelow (T : Int) : Int → List Cycle → Prop
  | _, [] => True
  | acc, c :: rest =>
    (readsChunk c = true → acc + bytesWritten c < 1024 * T) ∧
      staysBelow T (acc + bytesWritten c) rest

/-- State after the writes and the `chmod` of a pass `okCycle name b n n` from
`s`, before the rotation test. -/
def afterOk (s : State) (b : Bytes) (n : Nat) : State :=
  { s with
    g_printed := true,
    files := fun p =>
      if p = s.g_outputFileName then
        some ((s.files s.g_outputFileName).getD []
          ++ (if s.g_printed = true then [] else startBanner s.g_outputFileName) ++ b)
      else s.files p,
    trace := s.trace ++ markerEvents s (okCycle s.g_outputFileName b n n) ++ [Event.chunk b],
    g_outByteCount := s.g_outByteCount + n }

/-- State after a successful `setupOutput` for a non-empty name. -/
def opened (s : State) : State :=
  { s with
    files := fun p => if p = s.g_outputFileName then
        some ((s.files s.g_outputFileName).getD []) else s.files p,
    g_outFD := Fd.file s.g_outputFileName,
    g_outByteCount := fileSize ((s.files s.g_outputFileName).getD []) }

/-- State after a `rotateLogs` that reopened the file, for a non-empty name. -/
def rotated (s : State) (denied : Nat → Bool) : State :=
  { s with
    trace := s.trace ++ [Event.rotateLogs],
    files := fun p => if p = s.g_outputFileName then
        some ((shiftLogs s.g_outputFileName denied s.g_maxRotatedLogs.toNat s.files
          s.g_outputFileName).getD [])
      else shiftLogs s.g_outputFileName denied s.g_maxRotatedLogs.toNat s.files p,
    g_outFD := Fd.file s.g_outputFileName,
    g_outByteCount := 0 }

/-! ## Concrete inputs -/

/-- A directory holding only the empty active file `k`. -/
def scenarioFiles : Files := fun p => if p = "k" then some [] else none

/-- A chunk of 400 equal bytes. -/
def chunkOf (c : Char) : Bytes := List.replicate 400 c

/-- A directory holding the active file `k` and the historical file `k.1`. -/
def twoFiles : Files := fun p =>
  if p = "k" then some ['a'] else if p = "k.1" then some ['b'] else none

/-- A directory holding the active file `k` and the historical file `k.2`,
with `k.1` missing. -/
def gapFiles : Files := fun p =>
  if p = "k" then some ['a'] else if p = "k.2" then some ['z'] else none

/-- The program state for `-f k -r 1 -n 2` over `twoFiles`. -/
def twoState : State := initState "k" 1 2 twoFiles

/-- The program state for `-f k -r 1 -n 2` over `gapFiles`. -/
def gapState : State := initState "k" 1 2 gapFiles

/-- The program state for `-f k -r 1 -n 0` over `twoFiles`. -/
def zeroRetentionState : State := initState "k" 1 0 twoFiles

/-- The state `-f k -r 1 -n 2` over `twoFiles` once `setupOutput` has run. -/
def readyState : State := { twoState with g_outFD := Fd.file "k", g_outByteCount := 1 }

/-- A pass reading and writing the four bytes `wxyz`. -/
def smallCycle : Cycle := okCycle "k" ['w', 'x', 'y', 'z'] 4 4

/-- A pass reading and writing four bytes, with a failing `chmod`. -/
def failCycle : Cycle := { smallCycle with chmodOk := false }

/-- The state `-f k -r 1 -n 2` over `scenarioFiles` once `setupOutput` has
run. -/
def scenarioReady : State := { initState "k" 1 2 scenarioFiles with g_outFD := Fd.file "k" }

/-- An end-of-file pass: one interrupted `read`, then a `read` returning 0. -/
def eofCycle : Cycle := { smallCycle with readAttempts := [⟨-1, true⟩, ⟨0, false⟩] }

/-- A pass that reads and writes 1024 bytes to `k`. -/
def kiloCycle : Cycle := okCycle "k" (List.replicate 1024 'x') 1024 1024

/-- An end-of-file pass, a pass of 1024 bytes (which crosses the threshold of
`scenarioReady`), and a pass of four bytes. -/
def markerRun : List Cycle := [eofCycle, kiloCycle, smallCycle]

/-! ## File names -/

theorem digitChar_value : ∀ k, k < 10 → (Nat.digitChar k).toNat - 48 = k := by
  decide

theorem toDigitsCore_value (fuel : Nat) : ∀ (n : Nat) (ds : List Char), n < fuel →
    (Nat.toDigitsCore 10 fuel n ds).foldl (fun a c => 10 * a + (c.toNat - 48)) 0
      = ds.foldl (fun a c => 10 * a + (c.toNat - 48)) n := by
  induction fuel with
  | zero => intro n ds h; omega
  | succ fuel ih =>
    intro n ds h
    have hd : (Nat.digitChar (n % 10)).toNat - 48 = n % 10 :=
      digitChar_value _ (Nat.mod_lt _ (by decide))
    unfold Nat.toDigitsCore
    by_cases h0 : n / 10 = 0
    · simp only [h0, if_true, List.foldl_cons, hd]
      congr 1; omega
    · simp only [h0, if_false]
      rw [ih (n / 10) _ (by omega)]
      simp only [List.foldl_cons, hd]
      congr 1; omega

theorem digitsValue_repr (n : Nat) : digitsValue (Nat.repr n).data = n := by
  unfold digitsValue Nat.repr Nat.toDigits
  simp only [List.asString]
  rw [toDigitsCore_value (n + 1) n [] (by omega)]
  rfl

theorem repr_inj {i j : Nat} (h : Nat.repr i = Nat.repr j) : i = j := by
  have := congrArg (fun s => digitsValue s.data) h
  simpa [digitsValue_repr] using this

theorem rotatedName_inj {name : String} {i j : Nat}
    (h : rotatedName name i = rotatedName name j) : i = j := by
  unfold rotatedName at h
  have h1 := congrArg String.data h
  simp only [String.data_append, List.append_assoc, List.append_cancel_left_eq] at h1
  exact repr_inj (String.ext h1)

theorem rotatedName_ne_self (name : String) (i : Nat) : rotatedName name i ≠ name := by
  intro h
  have h1 := congrArg String.length h
  unfold rotatedName at h1
  simp only [String.length_append] at h1
  have : ".".length = 1 := rfl
  omega

theorem slot_inj {name : String} {i j : Nat} (h : slot name i = slot name j) : i = j := by
  unfold slot at h
  by_cases hi : i = 0 <;> by_cases hj : j = 0 <;> simp only [hi, hj, if_true, if_false] at h
  · omega
  · exact absurd h.symm (rotatedName_ne_self _ _)
  · exact absurd h (rotatedName_ne_self _ _)
  · exact rotatedName_inj h

theorem sourceName_eq_slot (name : String) (i : Nat) : sourceName name i = slot name (i - 1) := by
  unfold sourceName slot; rfl

/-! ## The shift of `rotateLogs` -/

theorem rename_outside (files : Files) (a b p : String) (d : Bool) (ha : p ≠ a) (hb : p ≠ b) :
    rename files a b d p = files p := by
  unfold rename
  cases h : files a with
  | none => rfl
  | some c =>
    by_cases hd : d = true
    · simp [hd]
    · by_cases hab : a = b
      · simp [hd, hab]
      · simp [hd, hab, ha, hb]

theorem rename_target (files : Files) (a b : String) (hab : a ≠ b) :
    rename files a b false b = match files a with
      | some c => some c
      | none => files b := by
  unfold rename
  cases h : files a with
  | none => rfl
  | some c => simp [hab]

theorem rename_source (files : Files) (a b : String) (hab : a ≠ b) :
    rename files a b false a = none := by
  unfold rename
  cases h : files a with
  | none => simpa using h
  | some c => simp [hab]

theorem slot_ne {name : String} {i j : Nat} (h : i ≠ j) : slot name i ≠ slot name j :=
  fun e => h (slot_inj e)

theorem rotatedName_eq_slot (name : String) (i : Nat) : rotatedName name (i + 1) = slot name (i + 1) := by
  unfold slot; simp

theorem shiftLogs_outside (name : String) (denied : Nat → Bool) (p : String) :
    ∀ (n : Nat) (files : Files), (∀ i, i ≤ n → p ≠ slot name i) →
      shiftLogs name denied n files p = files p := by
  intro n
  induction n with
  | zero => intro files _; rfl
  | succ n ih =>
    intro files hp
    unfold shiftLogs
    rw [ih _ (fun i hi => hp i (by omega)), sourceName_eq_slot, rotatedName_eq_slot]
    exact rename_outside _ _ _ _ _ (hp n (by omega)) (hp (n + 1) (by omega))

theorem shiftLogs_slot (name : String) (denied : Nat → Bool) (hden : ∀ i, denied i = false) :
    ∀ (n : Nat) (files : Files) (i : Nat), 1 ≤ i → i ≤ n →
      shiftLogs name denied n files (slot name i) =
        match files (slot name (i - 1)) with
        | some c => some c
        | none => if i = n then files (slot name n) else none := by
  intro n
  induction n with
  | zero => intro files i h1 h2; omega
  | succ n ih =>
    intro files i h1 h2
    unfold shiftLogs
    rw [sourceName_eq_slot, rotatedName_eq_slot, hden]
    have hne : slot name (n + 1 - 1) ≠ slot name (n + 1) := slot_ne (by omega)
    by_cases hi : i = n + 1
    · subst hi
      rw [shiftLogs_outside name denied _ n _ (fun j hj => slot_ne (by omega))]
      rw [rename_target _ _ _ hne]
      simp
    · rw [ih _ i h1 (by omega)]
      rw [rename_outside _ _ _ _ _ (slot_ne (by omega)) (slot_ne (by omega))]
      have hn : rename files (slot name (n + 1 - 1)) (slot name (n + 1)) false (slot name n) = none := by
        have := rename_source files _ _ hne
        simpa using this
      rw [hn]
      cases files (slot name (i - 1)) <;> simp [hi]

theorem shiftLogs_active (name : String) (denied : Nat → Bool) (hden : ∀ i, denied i = false) :
    ∀ (n : Nat) (files : Files), 1 ≤ n → shiftLogs name denied n files (slot name 0) = none := by
  intro n
  induction n with
  | zero => intro files h; omega
  | succ n ih =>
    intro files _
    unfold shiftLogs
    rw [sourceName_eq_slot, rotatedName_eq_slot, hden]
    have hne : slot name (n + 1 - 1) ≠ slot name (n + 1) := slot_ne (by omega)
    by_cases hn : n = 0
    · subst hn
      unfold shiftLogs
      exact rename_source files _ _ hne
    · exact ih _ (by omega)

/-! ## Rotation -/

theorem rotateLogs_running (s : State) (denied : Nat → Bool)
    (hname : s.g_outputFileName.length ≠ 0) :
    rotateLogs s denied true = .running { s with
      trace := s.trace ++ [Event.rotateLogs],
      files := fun p => if p = s.g_outputFileName then
          some ((shiftLogs s.g_outputFileName denied s.g_maxRotatedLogs.toNat s.files
            s.g_outputFileName).getD [])
        else shiftLogs s.g_outputFileName denied s.g_maxRotatedLogs.toNat s.files p,
      g_outFD := Fd.file s.g_outputFileName,
      g_outByteCount := 0 } := by
  simp [rotateLogs, openLogFile, hname]

theorem rotateLogs_files_slot (s : State) (denied : Nat → Bool)
    (hname : s.g_outputFileName.length ≠ 0) (hden : ∀ i, denied i = false) (i : Nat)
    (h1 : 1 ≤ i) (h2 : i ≤ s.g_maxRotatedLogs.toNat) :
    (rotateLogs s denied true).state.files (rotatedName s.g_outputFileName i) =
      match s.files (sourceName s.g_outputFileName i) with
      | some c => some c
      | none =>
        if i = s.g_maxRotatedLogs.toNat then s.files (rotatedName s.g_outputFileName i)
        else none := by
  rw [rotateLogs_running s denied hname]
  simp only [Outcome.state, rotatedName_ne_self, if_false]
  obtain ⟨k, rfl⟩ : ∃ k, i = k + 1 := ⟨i - 1, by omega⟩
  rw [rotatedName_eq_slot, shiftLogs_slot _ _ hden _ _ _ h1 h2, sourceName_eq_slot]
  by_cases hi : k + 1 = s.g_maxRotatedLogs.toNat
  · simp only [hi, if_true]
  · simp only [hi, if_false]

theorem rotateLogs_files_active (s : State) (denied : Nat → Bool)
    (hname : s.g_outputFileName.length ≠ 0) (hden : ∀ i, denied i = false)
    (hN : 1 ≤ s.g_maxRotatedLogs) :
    (rotateLogs s denied true).state.files s.g_outputFileName = some [] := by
  rw [rotateLogs_running s denied hname]
  simp only [Outcome.state, if_true]
  have := shiftLogs_active s.g_outputFileName denied hden s.g_maxRotatedLogs.toNat s.files
    (by omega)
  simp only [slot, if_true] at this
  rw [this]; rfl

theorem rotateLogs_files_outside (s : State) (denied : Nat → Bool) (reopenOk : Bool)
    (p : String) (hp : ∀ i, i ≤ s.g_maxRotatedLogs.toNat → p ≠ slot s.g_outputFileName i) :
    (rotateLogs s denied reopenOk).state.files p = s.files p := by
  have h0 : p ≠ s.g_outputFileName := by simpa [slot] using hp 0 (Nat.zero_le _)
  unfold rotateLogs
  by_cases hname : s.g_outputFileName.length = 0
  · simp [hname, Outcome.state]
  · cases reopenOk <;>
      simp [hname, openLogFile, Outcome.state, h0, shiftLogs_outside _ _ _ _ _ hp]

theorem familyCount_le (files : Files) (name : String) (n : Nat) :
    familyCount files name n ≤ n + 1 := by
  unfold familyCount
  calc _ ≤ (List.range (n + 1)).length := List.length_filter_le _ _
    _ = n + 1 := List.length_range _

/-! ## Claims about `rotateLogs` -/

/-- C2: for a retention count `N >= 0`, a non-empty output name and a system
that refuses no rename, `rotateLogs` completes; afterwards at most `N + 1`
files exist in the family `<name>`, `<name>.1`, .., `<name>.N`, every path
outside the family is untouched, and for every `i` in `1..N` whose source
(`<name>` for `i = 1`, else `<name>.<i-1>`) existed before, `<name>.<i>` holds
that source's former content. -/
theorem rotateLogs_shifts_family (s : State) (denied : Nat → Bool) (N : Nat)
    (hname : s.g_outputFileName.length ≠ 0) (hN : s.g_maxRotatedLogs = (N : Int))
    (hden : ∀ i, denied i = false) :
    ∃ s1, rotateLogs s denied true = .running s1 ∧
      familyCount s1.files s.g_outputFileName N ≤ N + 1 ∧
      (∀ p, (∀ i, i ≤ N → p ≠ slot s.g_outputFileName i) → s1.files p = s.files p) ∧
      (∀ i content, 1 ≤ i → i ≤ N →
        s.files (sourceName s.g_outputFileName i) = some content →
        s1.files (rotatedName s.g_outputFileName i) = some content) := by
  have hN1 : s.g_maxRotatedLogs.toNat = N := by omega
  refine ⟨_, rotateLogs_running s denied hname, familyCount_le _ _ _, ?_, ?_⟩
  · intro p hp
    have := rotateLogs_files_outside s denied true p (by rw [hN1]; exact hp)
    rwa [rotateLogs_running s denied hname] at this
  · intro i content h1 h2 hsrc
    have := rotateLogs_files_slot s denied hname hden i h1 (by omega)
    rw [rotateLogs_running s denied hname, hsrc] at this
    exact this

/-- Witness of C2 at `-f k -n 2` with `k` and `k.1` present. -/
theorem rotateLogs_shifts_family_witness :
    twoState.g_outputFileName.length ≠ 0 ∧ twoState.g_maxRotatedLogs = ((2 : Nat) : Int) ∧
    ∃ s1, rotateLogs twoState (fun _ => false) true = .running s1 ∧
      familyCount s1.files twoState.g_outputFileName 2 ≤ 2 + 1 ∧
      (∀ p, (∀ i, i ≤ 2 → p ≠ slot twoState.g_outputFileName i) →
        s1.files p = twoState.files p) ∧
      (∀ i content, 1 ≤ i → i ≤ 2 →
        twoState.files (sourceName twoState.g_outputFileName i) = some content →
        s1.files (rotatedName twoState.g_outputFileName i) = some content) :=
  ⟨by decide, by decide,
    rotateLogs_shifts_family twoState (fun _ => false) 2 (by decide) (by decide) (fun _ => rfl)⟩

/-- C3 (evaluation of the code where it departs from the claim): with
retention count 0 and an existing active file, `rotateLogs` completes with the
byte counter at 0 but the active file still holds all of its old content: it
is reopened for append, neither renamed away nor truncated. -/
theorem rotateLogs_zero_retention_keeps_content (s : State) (denied : Nat → Bool)
    (content : Bytes) (hname : s.g_outputFileName.length ≠ 0) (hN : s.g_maxRotatedLogs = 0)
    (hfile : s.files s.g_outputFileName = some content) :
    ∃ s1, rotateLogs s denied true = .running s1 ∧
      s1.files s.g_outputFileName = some content ∧ s1.g_outByteCount = 0 := by
  refine ⟨_, rotateLogs_running s denied hname, ?_, rfl⟩
  simp [hN, shiftLogs, hfile]

/-- Witness of the C3 evaluation at `-f k -n 0`, the active file holding `a`. -/
theorem rotateLogs_zero_retention_keeps_content_witness :
    zeroRetentionState.g_outputFileName.length ≠ 0 ∧ zeroRetentionState.g_maxRotatedLogs = 0 ∧
    zeroRetentionState.files zeroRetentionState.g_outputFileName = some ['a'] ∧
    ∃ s1, rotateLogs zeroRetentionState (fun _ => false) true = .running s1 ∧
      s1.files zeroRetentionState.g_outputFileName = some ['a'] ∧ s1.g_outByteCount = 0 :=
  ⟨by decide, by decide, by decide,
    rotateLogs_zero_retention_keeps_content zeroRetentionState (fun _ => false) ['a']
      (by decide) (by decide) (by decide)⟩

/-- C7, as the claim states it, fails: with `-n 2`, `k` and `k.2` present and
`k.1` missing, the source `k.1` of slot 2 did not exist before the rotation,
yet `k.2` still exists afterwards (with its old content). -/
theorem rotateLogs_gap_keeps_top_slot :
    (rotateLogs gapState (fun _ => false) true).isRunning = true ∧
    gapState.files (sourceName "k" 2) = none ∧
    (rotateLogs gapState (fun _ => false) true).state.files (rotatedName "k" 2)
      = some ['z'] := by
  decide

/-- C7 (amended): for `N >= 1`, a non-empty output name, a system that refuses
no rename and any pattern of present and absent files, `rotateLogs` does not
terminate the process; every slot `i` in `1..N` whose source existed receives
that source's content (so no failed rename stops the shift, and `<name>.1` is
produced from the active file); every slot `i < N` whose source did not exist
is absent afterwards; and slot `N`, when its source did not exist, is left as
it was. -/
theorem rotateLogs_tolerates_missing (s : State) (denied : Nat → Bool) (N : Nat)
    (hname : s.g_outputFileName.length ≠ 0) (hN : s.g_maxRotatedLogs = (N : Int))
    (hpos : 1 ≤ N) (hden : ∀ i, denied i = false) :
    ∃ s1, rotateLogs s denied true = .running s1 ∧
      (∀ content, s.files s.g_outputFileName = some content →
        s1.files (rotatedName s.g_outputFileName 1) = some content) ∧
      (∀ i content, 1 ≤ i → i ≤ N →
        s.files (sourceName s.g_outputFileName i) = some content →
        s1.files (rotatedName s.g_outputFileName i) = some content) ∧
      (∀ i, 1 ≤ i → i < N → s.files (sourceName s.g_outputFileName i) = none →
        s1.files (rotatedName s.g_outputFileName i) = none) ∧
      (s.files (sourceName s.g_outputFileName N) = none →
        s1.files (rotatedName s.g_outputFileName N)
          = s.files (rotatedName s.g_outputFileName N)) := by
  have hN1 : s.g_maxRotatedLogs.toNat = N := by omega
  have key : ∀ i, 1 ≤ i → i ≤ N →
      (rotateLogs s denied true).state.files (rotatedName s.g_outputFileName i) =
        match s.files (sourceName s.g_outputFileName i) with
        | some c => some c
        | none => if i = N then s.files (rotatedName s.g_outputFileName i) else none := by
    intro i h1 h2
    have := rotateLogs_files_slot s denied hname hden i h1 (by omega)
    rwa [hN1] at this
  rw [rotateLogs_running s denied hname] at key
  refine ⟨_, rotateLogs_running s denied hname, ?_, ?_, ?_, ?_⟩
  · intro content hsrc
    have := key 1 (Nat.le_refl 1) hpos
    have hs : sourceName s.g_outputFileName 1 = s.g_outputFileName := by simp [sourceName]
    rw [hs, hsrc] at this
    exact this
  · intro i content h1 h2 hsrc
    have := key i h1 h2
    rw [hsrc] at this
    exact this
  · intro i h1 h2 hsrc
    have := key i h1 (by omega)
    rw [hsrc] at this
    simpa [Nat.ne_of_lt h2] using this
  · intro hsrc
    have := key N hpos (Nat.le_refl N)
    rw [hsrc] at this
    simpa using this

/-- Witness of amended C7 at `-f k -n 2` with `k.1` missing. -/
theorem rotateLogs_tolerates_missing_witness :
    gapState.g_outputFileName.length ≠ 0 ∧ gapState.g_maxRotatedLogs = ((2 : Nat) : Int) ∧
    ∃ s1, rotateLogs gapState (fun _ => false) true = .running s1 ∧
      (∀ content, gapState.files gapState.g_outputFileName = some content →
        s1.files (rotatedName gapState.g_outputFileName 1) = some content) ∧
      (∀ i content, 1 ≤ i → i ≤ 2 →
        gapState.files (sourceName gapState.g_outputFileName i) = some content →
        s1.files (rotatedName gapState.g_outputFileName i) = some content) ∧
      (∀ i, 1 ≤ i → i < 2 → gapState.files (sourceName gapState.g_outputFileName i) = none →
        s1.files (rotatedName gapState.g_outputFileName i) = none) ∧
      (gapState.files (sourceName gapState.g_outputFileName 2) = none →
        s1.files (rotatedName gapState.g_outputFileName 2)
          = gapState.files (rotatedName gapState.g_outputFileName 2)) :=
  ⟨by decide, by decide,
    rotateLogs_tolerates_missing gapState (fun _ => false) 2 (by decide) (by decide)
      (by decide) (fun _ => rfl)⟩

/-! ## The passes of the loop -/

theorem tdiv_threshold (b T : Int) (hT : 0 < T) : T ≤ Int.tdiv b 1024 ↔ 1024 * T ≤ b := by
  by_cases hb : 0 ≤ b
  · rw [Int.tdiv_eq_ediv hb (by decide)]
    omega
  · have h1 : 0 ≤ Int.tdiv (-b) 1024 := Int.tdiv_nonneg (by omega) (by decide)
    have h2 : Int.tdiv (- -b) 1024 = -(Int.tdiv (-b) 1024) := Int.neg_tdiv _ _
    rw [Int.neg_neg] at h2
    omega

theorem shouldRotate_iff (b T : Int) : shouldRotate b T = true ↔ 0 < T ∧ 1024 * T ≤ b := by
  unfold shouldRotate
  simp only [decide_eq_true_eq, gt_iff_lt, ge_iff_le]
  constructor
  · rintro ⟨h1, h2⟩; exact ⟨h1, by omega⟩
  · rintro ⟨h1, h2⟩; exact ⟨h1, by omega⟩

theorem rotations_append (a b : List Event) : rotations (a ++ b) = rotations a + rotations b := by
  unfold rotations; exact List.count_append _ _ _

/-- The three configuration globals. -/
theorem rotateLogs_config (s : State) (d : Nat → Bool) (r : Bool) :
    (rotateLogs s d r).state.g_outputFileName = s.g_outputFileName ∧
    (rotateLogs s d r).state.g_logRotateSizeKBytes = s.g_logRotateSizeKBytes ∧
    (rotateLogs s d r).state.g_maxRotatedLogs = s.g_maxRotatedLogs ∧
    (rotateLogs s d r).state.g_printed = s.g_printed ∧
    (rotateLogs s d r).state.trace = s.trace ++ [Event.rotateLogs] := by
  unfold rotateLogs
  by_cases hname : s.g_outputFileName.length = 0
  · simp [hname, Outcome.state]
  · cases r <;> simp [hname, openLogFile, Outcome.state]

theorem rotateLogs_count (s s1 : State) (d : Nat → Bool) (r : Bool)
    (h : rotateLogs s d r = .running s1) :
    s1.g_outByteCount = if s.g_outputFileName.length = 0 then s.g_outByteCount else 0 := by
  unfold rotateLogs at h
  by_cases hname : s.g_outputFileName.length = 0
  · simp [hname] at h; subst h; simp [hname]
  · cases r <;> simp [hname, openLogFile] at h
    subst h; simp [hname]

@[simp] theorem sysWrite_name (s : State) (fd : Fd) (b : Bytes) (rc : Int) :
    (sysWrite s fd b rc).g_outputFileName = s.g_outputFileName := by
  cases fd <;> rfl

@[simp] theorem sysWrite_threshold (s : State) (fd : Fd) (b : Bytes) (rc : Int) :
    (sysWrite s fd b rc).g_logRotateSizeKBytes = s.g_logRotateSizeKBytes := by
  cases fd <;> rfl

@[simp] theorem sysWrite_maxLogs (s : State) (fd : Fd) (b : Bytes) (rc : Int) :
    (sysWrite s fd b rc).g_maxRotatedLogs = s.g_maxRotatedLogs := by
  cases fd <;> rfl

@[simp] theorem sysWrite_fd (s : State) (fd : Fd) (b : Bytes) (rc : Int) :
    (sysWrite s fd b rc).g_outFD = s.g_outFD := by
  cases fd <;> rfl

@[simp] theorem sysWrite_count (s : State) (fd : Fd) (b : Bytes) (rc : Int) :
    (sysWrite s fd b rc).g_outByteCount = s.g_outByteCount := by
  cases fd <;> rfl

@[simp] theorem sysWrite_printed (s : State) (fd : Fd) (b : Bytes) (rc : Int) :
    (sysWrite s fd b rc).g_printed = s.g_printed := by
  cases fd <;> rfl

@[simp] theorem sysWrite_err (s : State) (fd : Fd) (b : Bytes) (rc : Int) :
    (sysWrite s fd b rc).err_nr = s.err_nr := by
  cases fd <;> rfl

@[simp] theorem sysWrite_trace (s : State) (fd : Fd) (b : Bytes) (rc : Int) :
    (sysWrite s fd b rc).trace = s.trace := by
  cases fd <;> rfl

/-- What `maybe_print_start` leaves when it returns. -/
theorem maybe_print_start_running (s s1 : State) (rc : Int)
    (h : maybe_print_start s rc = .running s1) :
    s1.g_outputFileName = s.g_outputFileName ∧
    s1.g_logRotateSizeKBytes = s.g_logRotateSizeKBytes ∧
    s1.g_maxRotatedLogs = s.g_maxRotatedLogs ∧
    s1.g_outByteCount = s.g_outByteCount ∧
    s1.err_nr = s.err_nr ∧
    s1.g_outFD = s.g_outFD ∧
    s1.g_printed = true ∧
    s1.trace = s.trace ++
      (if s.g_printed = true then []
       else [Event.startMarker ((startBanner s.g_outputFileName).take rc.toNat)]) := by
  unfold maybe_print_start at h
  by_cases hp : s.g_printed = true
  · simp [hp] at h; subst h; simp [hp]
  · have hp1 : s.g_printed = false := by simpa using hp
    by_cases hrc : rc < 0
    · simp [hp1, hrc] at h
    · simp [hp1, hrc] at h; subst h; simp [hp1]

theorem writeChunk_fields (s : State) (buff : Bytes) (count w : Int) :
    (writeChunk s buff count w).g_outputFileName = s.g_outputFileName ∧
    (writeChunk s buff count w).g_logRotateSizeKBytes = s.g_logRotateSizeKBytes ∧
    (writeChunk s buff count w).g_maxRotatedLogs = s.g_maxRotatedLogs ∧
    (writeChunk s buff count w).g_outByteCount = s.g_outByteCount + w ∧
    (writeChunk s buff count w).err_nr = s.err_nr ∧
    (writeChunk s buff count w).g_outFD = s.g_outFD ∧
    (writeChunk s buff count w).g_printed = s.g_printed ∧
    (writeChunk s buff count w).trace
      = s.trace ++ [Event.chunk ((buff.take count.toNat).take w.toNat)] := by
  simp [writeChunk]

theorem chmodStep_running (s s1 : State) (ok : Bool) (h : chmodStep s ok = .running s1) :
    s1 = { s with err_nr := s1.err_nr } ∧
    (ok = true → s1.err_nr = s.err_nr) ∧
    (ok = false → s1.err_nr = s.err_nr + 1 ∧ s.err_nr ≤ 10) := by
  unfold chmodStep at h
  cases ok with
  | true => simp at h; subst h; simp
  | false =>
    by_cases he : s.err_nr > 10
    · simp [he] at h
    · simp [he] at h; subst h; simp; omega

theorem rotateIfDue_eq (s : State) (d : Nat → Bool) (r : Bool) :
    rotateIfDue s d r =
      if 0 < s.g_logRotateSizeKBytes ∧ 1024 * s.g_logRotateSizeKBytes ≤ s.g_outByteCount then
        rotateLogs s d r
      else .running s := by
  unfold rotateIfDue
  by_cases hT : 0 < s.g_logRotateSizeKBytes
  · simp only [gt_iff_lt, ge_iff_le, hT, true_and, tdiv_threshold _ _ hT]
  · simp [hT]

/-- A pass that leaves the process running is either an end-of-file pass that
changes nothing, or a chunk pass through all of its stages. -/
theorem loopBody_running_inv (s s1 : State) (c : Cycle) (h : loopBody s c = .running s1) :
    (readsChunk c = false ∧ bytesWritten c = 0 ∧ s1 = s) ∨
    (readsChunk c = true ∧ 0 ≤ bytesWritten c ∧
      ∃ count sm sc,
        FAILURE_RETRY c.readAttempts = some count ∧ 0 < count ∧
        maybe_print_start s c.markerWrite = .running sm ∧
        FAILURE_RETRY c.writeAttempts = some (bytesWritten c) ∧
        chmodStep (writeChunk sm c.buff count (bytesWritten c)) c.chmodOk = .running sc ∧
        rotateIfDue sc c.renameDenied c.reopenOk = .running s1) := by
  unfold loopBody at h
  cases hr : FAILURE_RETRY c.readAttempts with
  | none => simp [hr] at h
  | some count =>
    simp only [hr] at h
    by_cases hneg : count < 0
    · simp [hneg] at h
    · by_cases hz : count = 0
      · left
        cases hk : c.kmsgOpenOk <;> simp [hz, hk] at h
        subst h
        simp [readsChunk, bytesWritten, hr, hz]
      · right
        have hpos : 0 < count := by omega
        simp only [hneg, hz, if_false] at h
        cases hm : maybe_print_start s c.markerWrite with
        | exited code st => simp [hm] at h
        | retrying st => simp [hm] at h
        | running sm =>
          simp only [hm] at h
          cases hw : FAILURE_RETRY c.writeAttempts with
          | none => simp [hw] at h
          | some w =>
            simp only [hw] at h
            by_cases hwneg : w < 0
            · simp [hwneg] at h
            · simp only [hwneg, if_false] at h
              have hbw : bytesWritten c = w := by simp [bytesWritten, hr, hpos, hw]
              cases hc : chmodStep (writeChunk sm c.buff count w) c.chmodOk with
              | exited code st => simp [hc] at h
              | retrying st => simp [hc] at h
              | running sc =>
                simp only [hc] at h
                refine ⟨by simp [readsChunk, hr, hpos], by omega, count, sm, sc, rfl, hpos,
                  rfl, by rw [hbw], by rw [hbw]; exact hc, h⟩

theorem rotateLogs_reopened (s s1 : State) (d : Nat → Bool) (r : Bool)
    (hname : s.g_outputFileName.length ≠ 0) (h : rotateLogs s d r = .running s1) : r = true := by
  cases r with
  | true => rfl
  | false => simp [rotateLogs, hname, openLogFile] at h

/-- Summary of a chunk pass that leaves the process running. -/
theorem loopBody_chunk (s s1 : State) (c : Cycle) (h : loopBody s c = .running s1)
    (hc : readsChunk c = true) :
    s1.g_outputFileName = s.g_outputFileName ∧
    s1.g_logRotateSizeKBytes = s.g_logRotateSizeKBytes ∧
    s1.g_maxRotatedLogs = s.g_maxRotatedLogs ∧
    s1.g_printed = true ∧
    0 ≤ bytesWritten c ∧
    (if 0 < s.g_logRotateSizeKBytes ∧
          1024 * s.g_logRotateSizeKBytes ≤ s.g_outByteCount + bytesWritten c then
        s1.trace = s.trace ++ markerEvents s c
          ++ [Event.chunk (chunkData c), Event.rotateLogs] ∧
        s1.g_outByteCount =
          (if s.g_outputFileName.length = 0 then s.g_outByteCount + bytesWritten c else 0) ∧
        (s.g_outputFileName.length ≠ 0 → 1 ≤ s.g_maxRotatedLogs →
          (∀ i, c.renameDenied i = false) →
          s1.files s.g_outputFileName = some [] ∧ s1.g_outFD = Fd.file s.g_outputFileName)
      else
        s1.trace = s.trace ++ markerEvents s c ++ [Event.chunk (chunkData c)] ∧
        s1.g_outByteCount = s.g_outByteCount + bytesWritten c) := by
  rcases loopBody_running_inv s s1 c h with ⟨h0, -⟩ | ⟨-, hw0, count, sm, sc, hr, hpos, hm, hw, hch, hrot⟩
  · rw [hc] at h0; exact absurd h0 (by decide)
  obtain ⟨m1, m2, m3, m4, -, m6, m7, m8⟩ := maybe_print_start_running s sm _ hm
  obtain ⟨w1, w2, w3, w4, -, w6, w7, w8⟩ := writeChunk_fields sm c.buff count (bytesWritten c)
  obtain ⟨e1, -, -⟩ := chmodStep_running _ sc _ hch
  have c1 : sc.g_outputFileName = s.g_outputFileName := by rw [e1]; simp [w1, m1]
  have c2 : sc.g_logRotateSizeKBytes = s.g_logRotateSizeKBytes := by rw [e1]; simp [w2, m2]
  have c3 : sc.g_maxRotatedLogs = s.g_maxRotatedLogs := by rw [e1]; simp [w3, m3]
  have c4 : sc.g_outByteCount = s.g_outByteCount + bytesWritten c := by rw [e1]; simp [w4, m4]
  have c7 : sc.g_printed = true := by rw [e1]; simp [w7, m7]
  have c8 : sc.trace = s.trace ++ markerEvents s c ++
      [Event.chunk ((c.buff.take count.toNat).take (bytesWritten c).toNat)] := by
    rw [e1]; simp [w8, m8, markerEvents]
  rw [rotateIfDue_eq, c2, c4] at hrot
  have hcd : chunkData c = (c.buff.take count.toNat).take (bytesWritten c).toNat := by
    simp [chunkData, hr, hw]
  rw [hcd]
  refine ⟨?_, ?_, ?_, ?_, hw0, ?_⟩
  · by_cases hcond : 0 < s.g_logRotateSizeKBytes ∧
        1024 * s.g_logRotateSizeKBytes ≤ s.g_outByteCount + bytesWritten c
    · rw [if_pos hcond] at hrot
      have := (rotateLogs_config sc c.renameDenied c.reopenOk).1
      rw [hrot] at this; simpa [Outcome.state, c1] using this
    · rw [if_neg hcond] at hrot; cases hrot; exact c1
  · by_cases hcond : 0 < s.g_logRotateSizeKBytes ∧
        1024 * s.g_logRotateSizeKBytes ≤ s.g_outByteCount + bytesWritten c
    · rw [if_pos hcond] at hrot
      have := (rotateLogs_config sc c.renameDenied c.reopenOk).2.1
      rw [hrot] at this; simpa [Outcome.state, c2] using this
    · rw [if_neg hcond] at hrot; cases hrot; exact c2
  · by_cases hcond : 0 < s.g_logRotateSizeKBytes ∧
        1024 * s.g_logRotateSizeKBytes ≤ s.g_outByteCount + bytesWritten c
    · rw [if_pos hcond] at hrot
      have := (rotateLogs_config sc c.renameDenied c.reopenOk).2.2.1
      rw [hrot] at this; simpa [Outcome.state, c3] using this
    · rw [if_neg hcond] at hrot; cases hrot; exact c3
  · by_cases hcond : 0 < s.g_logRotateSizeKBytes ∧
        1024 * s.g_logRotateSizeKBytes ≤ s.g_outByteCount + bytesWritten c
    · rw [if_pos hcond] at hrot
      have := (rotateLogs_config sc c.renameDenied c.reopenOk).2.2.2.1
      rw [hrot] at this; simpa [Outcome.state, c7] using this
    · rw [if_neg hcond] at hrot; cases hrot; exact c7
  · by_cases hcond : 0 < s.g_logRotateSizeKBytes ∧
        1024 * s.g_logRotateSizeKBytes ≤ s.g_outByteCount + bytesWritten c
    · rw [if_pos hcond] at hrot ⊢
      refine ⟨?_, ?_, ?_⟩
      · have := (rotateLogs_config sc c.renameDenied c.reopenOk).2.2.2.2
        rw [hrot] at this
        simp only [Outcome.state] at this
        rw [this, c8]; simp
      · have := rotateLogs_count sc s1 _ _ hrot
        rw [this, c1, c4]
      · intro hname hN hden
        have hname1 : sc.g_outputFileName.length ≠ 0 := by rw [c1]; exact hname
        have hr1 := rotateLogs_reopened sc s1 _ _ hname1 hrot
        rw [hr1] at hrot
        have hf := rotateLogs_files_active sc c.renameDenied hname1 hden (by rw [c3]; exact hN)
        have hfd := rotateLogs_running sc c.renameDenied hname1
        rw [hrot] at hf
        rw [hrot] at hfd
        injection hfd with hfd
        constructor
        · simpa [Outcome.state, c1] using hf
        · rw [hfd]; simp [c1]
    · rw [if_neg hcond] at hrot ⊢
      cases hrot
      exact ⟨c8, c4⟩

theorem runLoop_append (s : State) (pre : List Cycle) (c : Cycle) :
    runLoop s (pre ++ [c]) =
      match runLoop s pre with
      | .running s1 => loopBody s1 c
      | o => o := by
  induction pre generalizing s with
  | nil =>
    simp only [List.nil_append, runLoop]
    cases loopBody s c <;> rfl
  | cons a rest ih =>
    simp only [List.cons_append, runLoop]
    cases h : loopBody s a with
    | running s1 => exact ih s1
    | exited code st => rfl
    | retrying st => rfl

/-- A pass changes none of the configuration globals. -/
theorem loopBody_config (s s1 : State) (c : Cycle) (h : loopBody s c = .running s1) :
    s1.g_outputFileName = s.g_outputFileName ∧
    s1.g_logRotateSizeKBytes = s.g_logRotateSizeKBytes ∧
    s1.g_maxRotatedLogs = s.g_maxRotatedLogs := by
  cases hc : readsChunk c with
  | true =>
    obtain ⟨h1, h2, h3, -⟩ := loopBody_chunk s s1 c h hc
    exact ⟨h1, h2, h3⟩
  | false =>
    rcases loopBody_running_inv s s1 c h with ⟨-, -, rfl⟩ | ⟨h0, -⟩
    · exact ⟨rfl, rfl, rfl⟩
    · rw [hc] at h0; exact absurd h0 (by decide)

theorem runLoop_config (cs : List Cycle) : ∀ (s s1 : State), runLoop s cs = .running s1 →
    s1.g_outputFileName = s.g_outputFileName ∧
    s1.g_logRotateSizeKBytes = s.g_logRotateSizeKBytes ∧
    s1.g_maxRotatedLogs = s.g_maxRotatedLogs := by
  induction cs with
  | nil => intro s s1 h; simp only [runLoop] at h; cases h; exact ⟨rfl, rfl, rfl⟩
  | cons c rest ih =>
    intro s s1 h
    simp only [runLoop] at h
    cases hb : loopBody s c with
    | running s2 =>
      rw [hb] at h
      obtain ⟨a1, a2, a3⟩ := loopBody_config s s2 c hb
      obtain ⟨b1, b2, b3⟩ := ih s2 s1 h
      exact ⟨b1.trans a1, b2.trans a2, b3.trans a3⟩
    | exited code st => rw [hb] at h; cases h
    | retrying st => rw [hb] at h; cases h

/-! ## Claims about the capture loop -/

theorem rotations_markerEvents (s : State) (c : Cycle) : rotations (markerEvents s c) = 0 := by
  unfold markerEvents rotations
  by_cases h : s.g_printed = true <;> simp [h]

theorem rotateIfDue_rotations (s : State) (d : Nat → Bool) (r : Bool) :
    rotations (rotateIfDue s d r).state.trace = rotations s.trace +
      (if shouldRotate s.g_outByteCount s.g_logRotateSizeKBytes = true then 1 else 0) := by
  rw [rotateIfDue_eq]
  by_cases hcond : 0 < s.g_logRotateSizeKBytes ∧ 1024 * s.g_logRotateSizeKBytes ≤ s.g_outByteCount
  · rw [if_pos hcond, if_pos ((shouldRotate_iff _ _).2 hcond),
      (rotateLogs_config s d r).2.2.2.2, rotations_append]
    rfl
  · rw [if_neg hcond, if_neg (fun h => hcond ((shouldRotate_iff _ _).1 h))]
    rfl

theorem dmesgBody_rotations (s : State) (d : DmesgCycle)
    (hchmod : d.chmodOk = true ∨ s.err_nr_dmesg ≤ 10) :
    rotations (dmesgBody s d).state.trace = rotations s.trace +
      (match stat (drainTo s.files s.g_outputFileName d.drained d.shell) s.g_outputFileName with
        | some size => if shouldRotate size s.g_logRotateSizeKBytes = true then 1 else 0
        | none => 0) := by
  have hT : ∀ b : Int, (s.g_logRotateSizeKBytes > 0 ∧ Int.tdiv b 1024 ≥ s.g_logRotateSizeKBytes)
      ↔ shouldRotate b s.g_logRotateSizeKBytes = true := by
    intro b
    rw [shouldRotate_iff]
    constructor
    · rintro ⟨h1, h2⟩; exact ⟨h1, (tdiv_threshold _ _ h1).1 h2⟩
    · rintro ⟨h1, h2⟩; exact ⟨h1, (tdiv_threshold _ _ h1).2 h2⟩
  unfold dmesgBody
  cases hok : d.chmodOk with
  | true =>
    simp only [if_true, if_pos, hT]
    cases stat (drainTo s.files s.g_outputFileName d.drained d.shell) s.g_outputFileName with
    | none => rfl
    | some size =>
      simp only []
      split
      · rw [(rotateLogs_config _ _ _).2.2.2.2, rotations_append]; rfl
      · rfl
  | false =>
    have he : ¬ s.err_nr_dmesg > 10 := by
      rcases hchmod with h | h
      · rw [hok] at h; cases h
      · omega
    simp only [he, if_false, if_true, if_pos, hT, Bool.false_eq_true]
    cases stat (drainTo s.files s.g_outputFileName d.drained d.shell) s.g_outputFileName with
    | none => rfl
    | some size =>
      simp only []
      split
      · rw [(rotateLogs_config _ _ _).2.2.2.2, rotations_append]; rfl
      · rfl

theorem loopBody_reaches_test (s : State) (c : Cycle) (count w : Int)
    (hread : FAILURE_RETRY c.readAttempts = some count) (hcount : 0 < count)
    (hmark : (maybe_print_start s c.markerWrite).isRunning = true)
    (hwrite : FAILURE_RETRY c.writeAttempts = some w) (hw : 0 ≤ w)
    (hchmod : c.chmodOk = true ∨ s.err_nr ≤ 10) :
    ∃ sc, loopBody s c = rotateIfDue sc c.renameDenied c.reopenOk ∧
      sc.g_outByteCount = s.g_outByteCount + w ∧
      sc.g_logRotateSizeKBytes = s.g_logRotateSizeKBytes ∧
      rotations sc.trace = rotations s.trace := by
  cases hm : maybe_print_start s c.markerWrite with
  | exited code st => rw [hm] at hmark; cases hmark
  | retrying st => rw [hm] at hmark; cases hmark
  | running sm =>
    obtain ⟨-, m2, -, m4, m5, -, -, m8⟩ := maybe_print_start_running s sm _ hm
    obtain ⟨-, w2, -, w4, w5, -, -, w8⟩ := writeChunk_fields sm c.buff count w
    have hch : ∃ sc, chmodStep (writeChunk sm c.buff count w) c.chmodOk = .running sc := by
      unfold chmodStep
      cases hok : c.chmodOk with
      | true => exact ⟨_, rfl⟩
      | false =>
        have : ¬ (writeChunk sm c.buff count w).err_nr > 10 := by
          rw [w5, m5]
          rcases hchmod with h | h
          · rw [hok] at h; cases h
          · omega
        simp only [this, if_false, Bool.false_eq_true]
        exact ⟨_, rfl⟩
    obtain ⟨sc, hsc⟩ := hch
    obtain ⟨e1, -, -⟩ := chmodStep_running _ sc _ hsc
    refine ⟨sc, ?_, ?_, ?_, ?_⟩
    · unfold loopBody
      simp only [hread, hm, hwrite, hsc]
      have h1 : ¬ count < 0 := by omega
      have h2 : ¬ count = 0 := by omega
      have h3 : ¬ w < 0 := by omega
      simp only [h1, h2, h3, if_false]
    · rw [e1]; simp [w4, m4]
    · rw [e1]; simp [w2, m2]
    · rw [e1]
      simp only [w8, m8, rotations_append]
      have := rotations_markerEvents s c
      unfold markerEvents at this
      rw [this]
      rfl

/-- C1: the rotation test of both loops is `shouldRotate`.  In a pass of the
capture loop that reaches the test (a chunk of `count > 0` bytes was read, the
writes returned and the `chmod` handling did not stop the process), with `w`
the bytes written, `rotateLogs` is called iff
`shouldRotate (g_outByteCount + w) g_logRotateSizeKBytes`; the snapshot loop
calls it iff `shouldRotate` holds of the size of the file; and `shouldRotate`
is false for every threshold `T <= 0`, for `T > 0` it holds iff
`b >= 1024 * T`, and for `b >= 0` it is the truncating test of the code. -/
theorem rotation_test_is_shouldRotate (s : State) (c : Cycle) (count w : Int)
    (hread : FAILURE_RETRY c.readAttempts = some count) (hcount : 0 < count)
    (hmark : (maybe_print_start s c.markerWrite).isRunning = true)
    (hwrite : FAILURE_RETRY c.writeAttempts = some w) (hw : 0 ≤ w)
    (hchmod : c.chmodOk = true ∨ s.err_nr ≤ 10) :
    rotations (loopBody s c).state.trace = rotations s.trace +
      (if shouldRotate (s.g_outByteCount + w) s.g_logRotateSizeKBytes = true then 1 else 0) ∧
    (∀ d : DmesgCycle, (d.chmodOk = true ∨ s.err_nr_dmesg ≤ 10) →
      rotations (dmesgBody s d).state.trace = rotations s.trace +
        (match stat (drainTo s.files s.g_outputFileName d.drained d.shell) s.g_outputFileName with
          | some size => if shouldRotate size s.g_logRotateSizeKBytes = true then 1 else 0
          | none => 0)) ∧
    (∀ b T : Int, T ≤ 0 → shouldRotate b T = false) ∧
    (∀ b T : Int, 0 < T → (shouldRotate b T = true ↔ 1024 * T ≤ b)) ∧
    (∀ b T : Int, 0 ≤ b → (shouldRotate b T = true ↔ (T > 0 ∧ Int.tdiv b 1024 ≥ T))) := by
  refine ⟨?_, fun d hd => dmesgBody_rotations s d hd, ?_, ?_, ?_⟩
  · obtain ⟨sc, h1, h2, h3, h4⟩ :=
      loopBody_reaches_test s c count w hread hcount hmark hwrite hw hchmod
    rw [h1, rotateIfDue_rotations, h2, h3, h4]
  · intro b T hT
    cases h : shouldRotate b T with
    | false => rfl
    | true => have := (shouldRotate_iff b T).1 h; omega
  · intro b T hT
    rw [shouldRotate_iff]
    exact ⟨fun h => h.2, fun h => ⟨hT, h⟩⟩
  · intro b T _
    rw [shouldRotate_iff]
    constructor
    · rintro ⟨h1, h2⟩; exact ⟨h1, (tdiv_threshold _ _ h1).2 h2⟩
    · rintro ⟨h1, h2⟩; exact ⟨h1, (tdiv_threshold _ _ h1).1 h2⟩

/-- Witness of C1 at a four-byte pass from `readyState`. -/
theorem rotation_test_is_shouldRotate_witness :
    FAILURE_RETRY smallCycle.readAttempts = some 4 ∧ (0 : Int) < 4 ∧
    (maybe_print_start readyState smallCycle.markerWrite).isRunning = true ∧
    FAILURE_RETRY smallCycle.writeAttempts = some 4 ∧ (0 : Int) ≤ 4 ∧
    (smallCycle.chmodOk = true ∨ readyState.err_nr ≤ 10) ∧
    (rotations (loopBody readyState smallCycle).state.trace = rotations readyState.trace +
      (if shouldRotate (readyState.g_outByteCount + 4) readyState.g_logRotateSizeKBytes = true
        then 1 else 0) ∧
    (∀ d : DmesgCycle, (d.chmodOk = true ∨ readyState.err_nr_dmesg ≤ 10) →
      rotations (dmesgBody readyState d).state.trace = rotations readyState.trace +
        (match stat (drainTo readyState.files readyState.g_outputFileName d.drained d.shell)
            readyState.g_outputFileName with
          | some size =>
            if shouldRotate size readyState.g_logRotateSizeKBytes = true then 1 else 0
          | none => 0)) ∧
    (∀ b T : Int, T ≤ 0 → shouldRotate b T = false) ∧
    (∀ b T : Int, 0 < T → (shouldRotate b T = true ↔ 1024 * T ≤ b)) ∧
    (∀ b T : Int, 0 ≤ b → (shouldRotate b T = true ↔ (T > 0 ∧ Int.tdiv b 1024 ≥ T)))) :=
  ⟨by decide, by decide, by decide, by decide, by decide, Or.inl (by decide),
    rotation_test_is_shouldRotate readyState smallCycle 4 4 (by decide) (by decide) (by decide)
      (by decide) (by decide) (Or.inl (by decide))⟩

theorem FAILURE_RETRY_interrupted (k : Nat) (l : List Attempt) :
    FAILURE_RETRY (List.replicate k ⟨-1, true⟩ ++ l) = FAILURE_RETRY l := by
  induction k with
  | zero => rfl
  | succ k ih => simp [List.replicate_succ, FAILURE_RETRY, ih]

/-- C10: with `count` the result of the `read` after the `EINTR` retry
(interrupted attempts before it change nothing): a result of 0 with a kernel
device that reopens leaves the process running in exactly the state it had
(byte counter, start-marker flag, files, standard output and log of calls
unchanged, so nothing written and no rotation); a negative result terminates
the process by `exit(-1)`, a non-zero status, with the state untouched. -/
theorem read_result_classification (s : State) (c : Cycle) (count : Int)
    (hread : FAILURE_RETRY c.readAttempts = some count) :
    (count = 0 → c.kmsgOpenOk = true → loopBody s c = .running s) ∧
    (count = 0 → (loopBody s c).state = s) ∧
    (count < 0 → loopBody s c = .exited (-1) s ∧ exitStatus (-1) ≠ 0) ∧
    (∀ k, loopBody s { c with readAttempts := List.replicate k ⟨-1, true⟩ ++ c.readAttempts }
      = loopBody s c) := by
  refine ⟨?_, ?_, ?_, ?_⟩
  · intro h0 hk
    unfold loopBody
    simp [hread, h0, hk]
  · intro h0
    unfold loopBody
    cases hk : c.kmsgOpenOk <;> simp [hread, h0, hk, Outcome.state]
  · intro hneg
    constructor
    · unfold loopBody
      simp [hread, hneg]
    · decide
  · intro k
    unfold loopBody
    simp only [FAILURE_RETRY_interrupted]

/-- Witness of C10 at an end-of-file pass (one interrupted `read`, then 0). -/
theorem read_result_classification_witness :
    FAILURE_RETRY eofCycle.readAttempts = some 0 ∧
    (((0 : Int) = 0 → eofCycle.kmsgOpenOk = true →
      loopBody readyState eofCycle = .running readyState) ∧
    ((0 : Int) = 0 → (loopBody readyState eofCycle).state = readyState) ∧
    ((0 : Int) < 0 →
      loopBody readyState eofCycle = .exited (-1) readyState ∧ exitStatus (-1) ≠ 0) ∧
    (∀ k, loopBody readyState
        { eofCycle with
          readAttempts := List.replicate k ⟨-1, true⟩ ++ eofCycle.readAttempts }
      = loopBody readyState eofCycle)) :=
  ⟨by decide, read_result_classification readyState eofCycle 0 (by decide)⟩

/-- For a non-empty output name and a threshold `T > 0`, each chunk pass of a
run that completes ends with the byte counter below `1024 * T`; a pass whose
bytes bring the counter to `1024 * T` calls `rotateLogs` exactly once, right
after the chunk's `write`, and ends with the counter at 0. -/
theorem runLoop_crossing (s0 s1 : State) (pre : List Cycle) (c : Cycle)
    (hname : s0.g_outputFileName.length ≠ 0) (hT : 0 < s0.g_logRotateSizeKBytes)
    (hrun : runLoop s0 (pre ++ [c]) = .running s1) (hc : readsChunk c = true) :
    s1.g_outByteCount < 1024 * s0.g_logRotateSizeKBytes ∧
    ∃ s, runLoop s0 pre = .running s ∧
      (1024 * s0.g_logRotateSizeKBytes ≤ s.g_outByteCount + bytesWritten c →
        (∃ data, s1.trace = s.trace ++ markerEvents s c ++ [Event.chunk data, Event.rotateLogs]) ∧
        rotations s1.trace = rotations s.trace + 1 ∧
        s1.g_outByteCount = 0 ∧
        (1 ≤ s0.g_maxRotatedLogs → (∀ i, c.renameDenied i = false) →
          s1.files s0.g_outputFileName = some [] ∧
          s1.g_outFD = Fd.file s0.g_outputFileName)) ∧
      (s.g_outByteCount + bytesWritten c < 1024 * s0.g_logRotateSizeKBytes →
        (∃ data, s1.trace = s.trace ++ markerEvents s c ++ [Event.chunk data]) ∧
        rotations s1.trace = rotations s.trace ∧
        s1.g_outByteCount = s.g_outByteCount + bytesWritten c) := by
  rw [runLoop_append] at hrun
  cases hpre : runLoop s0 pre with
  | exited code st => rw [hpre] at hrun; cases hrun
  | retrying st => rw [hpre] at hrun; cases hrun
  | running s =>
    rw [hpre] at hrun
    simp only at hrun
    obtain ⟨k1, k2, k3⟩ := runLoop_config pre s0 s hpre
    obtain ⟨-, -, -, -, -, hsum⟩ := loopBody_chunk s s1 c hrun hc
    rw [k1, k2, k3] at hsum
    have hname1 : ¬ s0.g_outputFileName.length = 0 := hname
    by_cases hcond : 1024 * s0.g_logRotateSizeKBytes ≤ s.g_outByteCount + bytesWritten c
    · rw [if_pos ⟨hT, hcond⟩, if_neg hname1] at hsum
      obtain ⟨t1, t2, t3⟩ := hsum
      refine ⟨by omega, s, rfl, ?_, ?_⟩
      · intro _
        refine ⟨⟨chunkData c, t1⟩, ?_, t2, fun hN hden => t3 hname hN hden⟩
        rw [t1, rotations_append, rotations_append, rotations_markerEvents]
        rfl
      · intro hlt; omega
    · rw [if_neg (fun h => hcond h.2)] at hsum
      obtain ⟨t1, t2⟩ := hsum
      refine ⟨by omega, s, rfl, ?_, ?_⟩
      · intro h; exact absurd h hcond
      · intro _
        refine ⟨⟨chunkData c, t1⟩, ?_, t2⟩
        rw [t1, rotations_append, rotations_append, rotations_markerEvents]
        rfl

theorem rotateLogs_err (s s1 : State) (d : Nat → Bool) (r : Bool)
    (h : rotateLogs s d r = .running s1) : s1.err_nr = s.err_nr := by
  unfold rotateLogs at h
  by_cases hname : s.g_outputFileName.length = 0
  · simp [hname] at h; subst h; rfl
  · cases r <;> simp [hname, openLogFile] at h
    subst h; rfl

theorem rotateLogs_total (s : State) (d : Nat → Bool) : ∃ s1, rotateLogs s d true = .running s1 := by
  unfold rotateLogs
  by_cases hname : s.g_outputFileName.length = 0
  · simp [hname]
  · simp [hname, openLogFile]

/-- A pass whose only failure is the `chmod`: it survives while the count of
earlier failures is at most 10, and stops the process otherwise. -/
theorem loopBody_chmodFailing (s : State) (c : Cycle) (hc : chmodFailing c = true) :
    (s.err_nr ≤ 10 → ∃ s1, loopBody s c = .running s1 ∧ s1.err_nr = s.err_nr + 1) ∧
    (10 < s.err_nr → (loopBody s c).exitCode = some (-1)) := by
  simp only [chmodFailing, Bool.and_eq_true, decide_eq_true_eq, Bool.not_eq_true'] at hc
  obtain ⟨⟨⟨⟨hr, hm⟩, hw⟩, hch⟩, hro⟩ := hc
  cases hread : FAILURE_RETRY c.readAttempts with
  | none => simp [readsChunk, hread] at hr
  | some count =>
    have hpos : 0 < count := by simpa [readsChunk, hread] using hr
    cases hwrite : FAILURE_RETRY c.writeAttempts with
    | none => simp [hwrite] at hw
    | some w =>
      have hw0 : 0 ≤ w := by simpa [hwrite] using hw
      have hmk : ∃ sm, maybe_print_start s c.markerWrite = .running sm := by
        unfold maybe_print_start
        by_cases hp : s.g_printed = false
        · simp [hp, Int.not_lt.2 hm]
        · simp [hp]
      obtain ⟨sm, hsm⟩ := hmk
      obtain ⟨-, -, -, -, m5, -, -, -⟩ := maybe_print_start_running s sm _ hsm
      obtain ⟨-, -, -, -, w5, -, -, -⟩ := writeChunk_fields sm c.buff count w
      have h1 : ¬ count < 0 := by omega
      have h2 : ¬ count = 0 := by omega
      have h3 : ¬ w < 0 := by omega
      constructor
      · intro he
        have he1 : ¬ (writeChunk sm c.buff count w).err_nr > 10 := by rw [w5, m5]; omega
        unfold loopBody
        simp only [hread, hsm, hwrite, h1, h2, h3, if_false, chmodStep, hch, he1,
          Bool.false_eq_true]
        rw [rotateIfDue_eq]
        split
        · rw [hro]
          obtain ⟨s1, hs1⟩ := rotateLogs_total
            { writeChunk sm c.buff count w with
              err_nr := (writeChunk sm c.buff count w).err_nr + 1 } c.renameDenied
          refine ⟨s1, hs1, ?_⟩
          rw [rotateLogs_err _ _ _ _ hs1]
          simp [w5, m5]
        · exact ⟨_, rfl, by simp [w5, m5]⟩
      · intro he
        have he1 : (writeChunk sm c.buff count w).err_nr > 10 := by rw [w5, m5]; omega
        unfold loopBody
        simp only [hread, hsm, hwrite, h1, h2, h3, if_false, chmodStep, hch, he1,
          Bool.false_eq_true, if_true]
        rfl

theorem runLoop_chmodFailing (cs : List Cycle) : ∀ (s : State),
    (∀ c ∈ cs, chmodFailing c = true) → 0 ≤ s.err_nr → s.err_nr + cs.length ≤ 11 →
    ∃ s1, runLoop s cs = .running s1 ∧ s1.err_nr = s.err_nr + cs.length := by
  induction cs with
  | nil => intro s _ _ _; exact ⟨s, rfl, by simp⟩
  | cons c rest ih =>
    intro s hall h0 hlen
    simp only [List.length_cons, Nat.cast_add, Nat.cast_one] at hlen
    obtain ⟨s1, h1, e1⟩ := (loopBody_chmodFailing s c (hall c (List.mem_cons_self _ _))).1
      (by omega)
    obtain ⟨s2, h2, e2⟩ := ih s1 (fun x hx => hall x (List.mem_cons_of_mem _ hx)) (by omega)
      (by omega)
    refine ⟨s2, ?_, ?_⟩
    · simp only [runLoop, h1]; exact h2
    · rw [e2, e1]; simp only [List.length_cons, Nat.cast_add, Nat.cast_one]; omega

/-- C8 (evaluation of the code where it departs from the claim): starting with
no failure counted, in a run where the `chmod` of every pass fails (and
nothing else does) the process is still running after 11 passes, that is
after the 11th consecutive failure, and it is the 12th failure that
terminates it with `exit(-1)`: `err_nr++ > 10` compares the count of the
earlier failures.  A successful `chmod` never terminates the process. -/
theorem chmod_failures_stop_at_twelfth (s : State) (cs : List Cycle) (c : Cycle)
    (herr : s.err_nr = 0) (hall : ∀ x ∈ cs, chmodFailing x = true)
    (hc : chmodFailing c = true) :
    (cs.length ≤ 11 → (runLoop s cs).isRunning = true) ∧
    (cs.length = 11 → (runLoop s (cs ++ [c])).exitCode = some (-1)) ∧
    (∀ st : State, chmodStep st true = .running st) := by
  refine ⟨?_, ?_, fun st => rfl⟩
  · intro hlen
    obtain ⟨s1, h1, -⟩ := runLoop_chmodFailing cs s hall (by omega) (by omega)
    rw [h1]; rfl
  · intro hlen
    obtain ⟨s1, h1, e1⟩ := runLoop_chmodFailing cs s hall (by omega) (by omega)
    rw [runLoop_append, h1]
    exact (loopBody_chmodFailing s1 c hc).2 (by omega)

/-- Witness of the C8 evaluation: eleven, then twelve, failing passes. -/
theorem chmod_failures_stop_at_twelfth_witness :
    readyState.err_nr = 0 ∧ (∀ x ∈ List.replicate 11 failCycle, chmodFailing x = true) ∧
    chmodFailing failCycle = true ∧
    (((List.replicate 11 failCycle).length ≤ 11 →
      (runLoop readyState (List.replicate 11 failCycle)).isRunning = true) ∧
    ((List.replicate 11 failCycle).length = 11 →
      (runLoop readyState (List.replicate 11 failCycle ++ [failCycle])).exitCode = some (-1)) ∧
    (∀ st : State, chmodStep st true = .running st)) :=
  ⟨by decide, fun x hx => by rw [List.eq_of_mem_replicate hx]; decide, by decide,
    chmod_failures_stop_at_twelfth readyState (List.replicate 11 failCycle) failCycle
      (by decide) (fun x hx => by rw [List.eq_of_mem_replicate hx]; decide) (by decide)⟩

theorem setupOutput_running (s : State) (hname : s.g_outputFileName.length ≠ 0) :
    setupOutput s true = .running { s with
      files := fun p => if p = s.g_outputFileName then
          some ((s.files s.g_outputFileName).getD []) else s.files p,
      g_outFD := Fd.file s.g_outputFileName,
      g_outByteCount := fileSize ((s.files s.g_outputFileName).getD []) } := by
  simp [setupOutput, openLogFile, hname]

/-- While every chunk pass stays below the threshold the loop does not rotate
and the counter is the start value plus the bytes written. -/
theorem runLoop_staysBelow (cs : List Cycle) : ∀ (s s1 : State),
    0 < s.g_logRotateSizeKBytes → runLoop s cs = .running s1 →
    staysBelow s.g_logRotateSizeKBytes s.g_outByteCount cs →
    s1.g_outByteCount = s.g_outByteCount + totalWritten cs ∧
    rotations s1.trace = rotations s.trace := by
  induction cs with
  | nil =>
    intro s s1 _ h _
    simp only [runLoop] at h
    cases h
    simp [totalWritten]
  | cons c rest ih =>
    intro s s1 hT h hb
    simp only [runLoop] at h
    obtain ⟨hb1, hb2⟩ := hb
    cases hbody : loopBody s c with
    | exited code st => rw [hbody] at h; cases h
    | retrying st => rw [hbody] at h; cases h
    | running s2 =>
      rw [hbody] at h
      simp only at h
      have hstep : s2.g_logRotateSizeKBytes = s.g_logRotateSizeKBytes ∧
          s2.g_outByteCount = s.g_outByteCount + bytesWritten c ∧
          rotations s2.trace = rotations s.trace := by
        cases hc : readsChunk c with
        | false =>
          rcases loopBody_running_inv s s2 c hbody with ⟨-, hz, rfl⟩ | ⟨h0, -⟩
          · exact ⟨rfl, by rw [hz]; simp, rfl⟩
          · rw [hc] at h0; cases h0
        | true =>
          obtain ⟨-, k2, -, -, -, hsum⟩ := loopBody_chunk s s2 c hbody hc
          have hlt := hb1 hc
          rw [if_neg (fun hh => absurd hh.2 (by omega))] at hsum
          refine ⟨k2, hsum.2, ?_⟩
          rw [hsum.1, rotations_append, rotations_append, rotations_markerEvents]
          rfl
      obtain ⟨a1, a2, a3⟩ := hstep
      have := ih s2 s1 (by rw [a1]; exact hT) h (by rw [a1, a2]; exact hb2)
      refine ⟨?_, by rw [this.2, a3]⟩
      rw [this.1, a2]
      simp only [totalWritten, List.map_cons, List.sum_cons]
      omega

theorem totalWritten_append (pre : List Cycle) (c : Cycle) :
    totalWritten (pre ++ [c]) = totalWritten pre + bytesWritten c := by
  simp [totalWritten]

/-- C9: for a non-empty output name, `setupOutput` (with a successful `open`)
leaves the byte counter equal to the size of the file already at that path
(0 when the file is created).  In the loop that follows, with threshold
`T > 0`: as long as every chunk pass has ended with that size plus the bytes
written since the start below `1024 * T`, no rotation has happened and the
counter is exactly that sum; and the first chunk pass that brings the sum to
`1024 * T` or more rotates. -/
theorem resume_seeds_counter (s : State) (hname : s.g_outputFileName.length ≠ 0)
    (hT : 0 < s.g_logRotateSizeKBytes) :
    ∃ s1, setupOutput s true = .running s1 ∧
      s1.g_outByteCount = fileSize ((s.files s.g_outputFileName).getD []) ∧
      (∀ content, s.files s.g_outputFileName = some content →
        s1.g_outByteCount = (content.length : Int)) ∧
      (s.files s.g_outputFileName = none → s1.g_outByteCount = 0) ∧
      (∀ pre s2, runLoop s1 pre = .running s2 →
        staysBelow s.g_logRotateSizeKBytes (fileSize ((s.files s.g_outputFileName).getD [])) pre →
        rotations s2.trace = rotations s1.trace ∧
        s2.g_outByteCount
          = fileSize ((s.files s.g_outputFileName).getD []) + totalWritten pre) ∧
      (∀ pre c s3, runLoop s1 (pre ++ [c]) = .running s3 →
        staysBelow s.g_logRotateSizeKBytes (fileSize ((s.files s.g_outputFileName).getD [])) pre →
        readsChunk c = true →
        1024 * s.g_logRotateSizeKBytes
          ≤ fileSize ((s.files s.g_outputFileName).getD []) + totalWritten (pre ++ [c]) →
        rotations s3.trace = rotations s1.trace + 1 ∧ s3.g_outByteCount = 0) := by
  refine ⟨_, setupOutput_running s hname, rfl, ?_, ?_, ?_, ?_⟩
  · intro content h; simp [h, fileSize]
  · intro h; simp [h, fileSize]
  · intro pre s2 hrun hb
    have := runLoop_staysBelow pre _ s2 (by exact hT) hrun hb
    exact ⟨this.2, this.1⟩
  · intro pre c s3 hrun hb hc hcross
    rw [runLoop_append] at hrun
    cases hpre : runLoop _ pre with
    | exited code st => rw [hpre] at hrun; cases hrun
    | retrying st => rw [hpre] at hrun; cases hrun
    | running s2 =>
      rw [hpre] at hrun
      simp only at hrun
      obtain ⟨k1, k2, -⟩ := runLoop_config pre _ s2 hpre
      have hst := runLoop_staysBelow pre _ s2 (by exact hT) hpre hb
      obtain ⟨-, -, -, -, -, hsum⟩ := loopBody_chunk s2 s3 c hrun hc
      rw [totalWritten_append] at hcross
      have hname2 : ¬ s2.g_outputFileName.length = 0 := by rw [k1]; exact hname
      have hcond : 0 < s2.g_logRotateSizeKBytes ∧
          1024 * s2.g_logRotateSizeKBytes ≤ s2.g_outByteCount + bytesWritten c := by
        rw [k2, hst.1]
        exact ⟨hT, by simp only []; omega⟩
      rw [if_pos hcond, if_neg hname2] at hsum
      refine ⟨?_, hsum.2.1⟩
      rw [hsum.1, rotations_append, rotations_append, rotations_markerEvents, hst.2]
      rfl

/-- Witness of C9: `-f k -r 1 -n 2` over a directory where `k` holds one byte. -/
theorem resume_seeds_counter_witness :
    twoState.g_outputFileName.length ≠ 0 ∧ 0 < twoState.g_logRotateSizeKBytes ∧
    ∃ s1, setupOutput twoState true = .running s1 ∧
      s1.g_outByteCount = fileSize ((twoState.files twoState.g_outputFileName).getD []) ∧
      (∀ content, twoState.files twoState.g_outputFileName = some content →
        s1.g_outByteCount = (content.length : Int)) ∧
      (twoState.files twoState.g_outputFileName = none → s1.g_outByteCount = 0) ∧
      (∀ pre s2, runLoop s1 pre = .running s2 →
        staysBelow twoState.g_logRotateSizeKBytes
          (fileSize ((twoState.files twoState.g_outputFileName).getD [])) pre →
        rotations s2.trace = rotations s1.trace ∧
        s2.g_outByteCount
          = fileSize ((twoState.files twoState.g_outputFileName).getD []) + totalWritten pre) ∧
      (∀ pre c s3, runLoop s1 (pre ++ [c]) = .running s3 →
        staysBelow twoState.g_logRotateSizeKBytes
          (fileSize ((twoState.files twoState.g_outputFileName).getD [])) pre →
        readsChunk c = true →
        1024 * twoState.g_logRotateSizeKBytes
          ≤ fileSize ((twoState.files twoState.g_outputFileName).getD [])
            + totalWritten (pre ++ [c]) →
        rotations s3.trace = rotations s1.trace + 1 ∧ s3.g_outByteCount = 0) :=
  ⟨by decide, by decide, resume_seeds_counter twoState (by decide) (by decide)⟩

/-- Once the flag `g_printed` is set, a run only appends events that are not
banner writes. -/
theorem runLoop_printed (cs : List Cycle) : ∀ (s s1 : State),
    s.g_printed = true → runLoop s cs = .running s1 →
    ∃ ext, s1.trace = s.trace ++ ext ∧ ∀ b, Event.startMarker b ∉ ext := by
  induction cs with
  | nil =>
    intro s s1 _ h
    simp only [runLoop] at h
    cases h
    exact ⟨[], by simp, by simp⟩
  | cons c rest ih =>
    intro s s1 hp h
    simp only [runLoop] at h
    cases hbody : loopBody s c with
    | exited code st => rw [hbody] at h; cases h
    | retrying st => rw [hbody] at h; cases h
    | running s2 =>
      rw [hbody] at h
      simp only at h
      have hstep : s2.g_printed = true ∧
          ∃ ext, s2.trace = s.trace ++ ext ∧ ∀ b, Event.startMarker b ∉ ext := by
        cases hc : readsChunk c with
        | false =>
          rcases loopBody_running_inv s s2 c hbody with ⟨-, -, rfl⟩ | ⟨h0, -⟩
          · exact ⟨hp, [], by simp, by simp⟩
          · rw [hc] at h0; cases h0
        | true =>
          obtain ⟨-, -, -, k4, -, hsum⟩ := loopBody_chunk s s2 c hbody hc
          have hmk : markerEvents s c = [] := by simp [markerEvents, hp]
          rw [hmk] at hsum
          refine ⟨k4, ?_⟩
          split at hsum
          · exact ⟨[Event.chunk (chunkData c), Event.rotateLogs], by rw [hsum.1, List.append_nil],
              by simp⟩
          · exact ⟨[Event.chunk (chunkData c)], by rw [hsum.1, List.append_nil], by simp⟩
      obtain ⟨hp2, ext1, e1, n1⟩ := hstep
      obtain ⟨ext2, e2, n2⟩ := ih s2 s1 hp2 h
      refine ⟨ext1 ++ ext2, by rw [e2, e1, List.append_assoc], ?_⟩
      intro b hb
      rcases List.mem_append.1 hb with hb | hb
      · exact n1 b hb
      · exact n2 b hb

/-! ## The bytes that reach the output files -/

theorem appendTo_appendTo (files : Files) (path : String) (a b : Bytes) :
    appendTo (appendTo files path a) path b = appendTo files path (a ++ b) := by
  funext p
  by_cases hp : p = path <;> simp [appendTo, hp, List.append_assoc]

theorem maybe_print_start_files (s sm : State) (rc : Int)
    (hfd : s.g_outFD = Fd.file s.g_outputFileName)
    (h : maybe_print_start s rc = .running sm) :
    sm.files = if s.g_printed = true then s.files
      else appendTo s.files s.g_outputFileName ((startBanner s.g_outputFileName).take rc.toNat) := by
  unfold maybe_print_start at h
  by_cases hp : s.g_printed = true
  · simp [hp] at h; subst h; simp [hp]
  · have hp1 : s.g_printed = false := by simpa using hp
    by_cases hrc : rc < 0
    · simp [hp1, hrc] at h
    · simp [hp1, hrc] at h; subst h
      simp [hp1, hfd, sysWrite]
      rfl

theorem writeChunk_files (s : State) (buff : Bytes) (count w : Int)
    (hfd : s.g_outFD = Fd.file s.g_outputFileName) :
    (writeChunk s buff count w).files
      = appendTo s.files s.g_outputFileName ((buff.take count.toNat).take w.toNat) := by
  simp [writeChunk, hfd, sysWrite]
  rfl

/-- What a chunk pass that leaves the process running does to the directory:
the banner bytes (if due) and the chunk bytes are appended to the active file,
and when the threshold is crossed the family is then shifted and the active
file reopened. -/
theorem loopBody_chunk_files (s s1 : State) (c : Cycle) (h : loopBody s c = .running s1)
    (hc : readsChunk c = true) (hfd : s.g_outFD = Fd.file s.g_outputFileName)
    (hname : s.g_outputFileName.length ≠ 0) :
    s1.g_outFD = Fd.file s.g_outputFileName ∧
    (if 0 < s.g_logRotateSizeKBytes ∧
          1024 * s.g_logRotateSizeKBytes ≤ s.g_outByteCount + bytesWritten c then
        s1.files = reopenedShift
          (appendTo s.files s.g_outputFileName
            (markerBytes s.g_printed s.g_outputFileName c ++ chunkData c))
          s.g_outputFileName c.renameDenied s.g_maxRotatedLogs.toNat
      else
        s1.files = appendTo s.files s.g_outputFileName
          (markerBytes s.g_printed s.g_outputFileName c ++ chunkData c)) := by
  rcases loopBody_running_inv s s1 c h with ⟨h0, -⟩ | ⟨-, -, count, sm, sc, hr, hpos, hm, hw, hch, hrot⟩
  · rw [hc] at h0; exact absurd h0 (by decide)
  obtain ⟨m1, m2, m3, m4, -, m6, -, -⟩ := maybe_print_start_running s sm _ hm
  have mf := maybe_print_start_files s sm _ hfd hm
  have hfdm : sm.g_outFD = Fd.file sm.g_outputFileName := by rw [m6, m1]; exact hfd
  obtain ⟨w1, w2, w3, w4, -, w6, -, -⟩ := writeChunk_fields sm c.buff count (bytesWritten c)
  have wf := writeChunk_files sm c.buff count (bytesWritten c) hfdm
  obtain ⟨e1, -, -⟩ := chmodStep_running _ sc _ hch
  have hcd : chunkData c = (c.buff.take count.toNat).take (bytesWritten c).toNat := by
    simp [chunkData, hr, hw]
  have c1 : sc.g_outputFileName = s.g_outputFileName := by rw [e1]; simp [w1, m1]
  have c2 : sc.g_logRotateSizeKBytes = s.g_logRotateSizeKBytes := by rw [e1]; simp [w2, m2]
  have c3 : sc.g_maxRotatedLogs = s.g_maxRotatedLogs := by rw [e1]; simp [w3, m3]
  have c4 : sc.g_outByteCount = s.g_outByteCount + bytesWritten c := by rw [e1]; simp [w4, m4]
  have c6 : sc.g_outFD = Fd.file s.g_outputFileName := by rw [e1]; simp [w6, m6, hfd]
  have cf : sc.files = appendTo s.files s.g_outputFileName
      (markerBytes s.g_printed s.g_outputFileName c ++ chunkData c) := by
    rw [e1]
    simp only [wf, mf, m1, hcd]
    by_cases hp : s.g_printed = true
    · simp [hp, markerBytes]
    · simp [hp, markerBytes, appendTo_appendTo]
  rw [rotateIfDue_eq, c2, c4] at hrot
  by_cases hcond : 0 < s.g_logRotateSizeKBytes ∧
      1024 * s.g_logRotateSizeKBytes ≤ s.g_outByteCount + bytesWritten c
  · rw [if_pos hcond] at hrot ⊢
    have hname1 : sc.g_outputFileName.length ≠ 0 := by rw [c1]; exact hname
    have hr1 := rotateLogs_reopened sc s1 _ _ hname1 hrot
    rw [hr1, rotateLogs_running sc c.renameDenied hname1] at hrot
    injection hrot with hrot
    subst hrot
    refine ⟨by simp [c1], ?_⟩
    simp only [c1, c3, cf]
    rfl
  · rw [if_neg hcond] at hrot ⊢
    cases hrot
    exact ⟨c6, cf⟩

theorem rotatedName_succ_ne (name : String) (i : Nat) : rotatedName name (i + 1) ≠ name :=
  rotatedName_ne_self name (i + 1)

theorem familyStream_appendTo (files : Files) (name : String) (b : Bytes) (n : Nat) :
    familyStream (appendTo files name b) name n = familyStream files name n ++ b := by
  induction n with
  | zero => simp [familyStream, appendTo]
  | succ n ih =>
    simp only [familyStream, ih, List.append_assoc]
    simp [appendTo, rotatedName_ne_self]

/-- Two directories whose family members agree have the same stream. -/
theorem familyStream_congr (f g : Files) (name : String) (n : Nat)
    (h : ∀ i, i ≤ n → g (slot name i) = f (slot name i)) :
    familyStream g name n = familyStream f name n := by
  induction n with
  | zero =>
    have := h 0 (Nat.le_refl 0)
    simp only [slot, if_true] at this
    simp [familyStream, this]
  | succ n ih =>
    have h1 := h (n + 1) (Nat.le_refl _)
    rw [← rotatedName_eq_slot] at h1
    simp only [familyStream, h1, ih (fun i hi => h i (by omega))]

/-- A directory `g` that holds at slot `i + 1` what `f` holds at slot `i`, and
an empty active file, streams like `f`. -/
theorem familyStream_shifted (f g : Files) (name : String) (n : Nat)
    (h0 : (g name).getD [] = [])
    (h : ∀ i, i ≤ n → g (rotatedName name (i + 1)) = f (slot name i)) :
    familyStream g name (n + 1) = familyStream f name n := by
  induction n with
  | zero =>
    have := h 0 (Nat.le_refl 0)
    simp only [slot, if_true] at this
    simp [familyStream, this, h0]
  | succ n ih =>
    have h1 := h (n + 1) (Nat.le_refl _)
    rw [← rotatedName_eq_slot] at h1
    rw [familyStream, ih (fun i hi => h i (by omega)), h1]
    rfl

theorem familyStream_reopenedShift (files : Files) (name : String) (denied : Nat → Bool)
    (n : Nat) (hden : ∀ i, denied i = false)
    (htop : n = 0 ∨ files (rotatedName name n) = none) :
    familyStream (reopenedShift files name denied n) name n = familyStream files name n := by
  cases n with
  | zero => simp [familyStream, reopenedShift, shiftLogs]
  | succ m =>
    have htop1 : files (rotatedName name (m + 1)) = none := by
      rcases htop with h | h
      · omega
      · exact h
    rw [familyStream_shifted files _ name m]
    · simp [familyStream, htop1]
    · have := shiftLogs_active name denied hden (m + 1) files (by omega)
      simp only [slot, if_true] at this
      simp [reopenedShift, this]
    · intro i hi
      have hs := shiftLogs_slot name denied hden (m + 1) files (i + 1) (by omega) (by omega)
      rw [← rotatedName_eq_slot] at hs
      simp only [reopenedShift, rotatedName_ne_self, if_false, hs, Nat.add_sub_cancel]
      cases hfi : files (slot name i) with
      | some c => rfl
      | none =>
        by_cases him : i + 1 = m + 1
        · simp only [him, if_true]
          rw [← rotatedName_eq_slot]; exact htop1
        · simp only [him, if_false]

theorem familyStream_noHistory (files : Files) (name : String) (n : Nat)
    (h : ∀ i, 1 ≤ i → i ≤ n → files (rotatedName name i) = none) :
    familyStream files name n = (files name).getD [] := by
  induction n with
  | zero => rfl
  | succ n ih =>
    rw [familyStream, h (n + 1) (by omega) (Nat.le_refl _), ih (fun i h1 h2 => h i h1 (by omega))]
    rfl

/-- What a chunk pass does to the stream of the family, when a rotation in
the pass finds the top slot free (`k` rotated files so far, `k < N`, or
`N = 0`). -/
theorem loopBody_chunk_stream (s s1 : State) (c : Cycle) (k : Nat)
    (h : loopBody s c = .running s1) (hc : readsChunk c = true)
    (hfd : s.g_outFD = Fd.file s.g_outputFileName) (hname : s.g_outputFileName.length ≠ 0)
    (hden : ∀ i, c.renameDenied i = false)
    (hJ : ∀ i, k < i → i ≤ s.g_maxRotatedLogs.toNat →
      s.files (rotatedName s.g_outputFileName i) = none)
    (hroom : rotations s.trace < rotations s1.trace →
      s.g_maxRotatedLogs.toNat = 0 ∨ k < s.g_maxRotatedLogs.toNat) :
    familyStream s1.files s.g_outputFileName s.g_maxRotatedLogs.toNat
      = familyStream s.files s.g_outputFileName s.g_maxRotatedLogs.toNat
        ++ (markerBytes s.g_printed s.g_outputFileName c ++ chunkData c) ∧
    ∃ r, rotations s1.trace = rotations s.trace + r ∧
      ∀ i, k + r < i → i ≤ s.g_maxRotatedLogs.toNat →
        s1.files (rotatedName s.g_outputFileName i) = none := by
  obtain ⟨-, hfiles⟩ := loopBody_chunk_files s s1 c h hc hfd hname
  obtain ⟨-, -, -, -, -, hsum⟩ := loopBody_chunk s s1 c h hc
  by_cases hcond : 0 < s.g_logRotateSizeKBytes ∧
      1024 * s.g_logRotateSizeKBytes ≤ s.g_outByteCount + bytesWritten c
  · rw [if_pos hcond] at hfiles hsum
    have hrot : rotations s1.trace = rotations s.trace + 1 := by
      rw [hsum.1, rotations_append, rotations_append, rotations_markerEvents]
      rfl
    have hk := hroom (by omega)
    have happ : ∀ i, k < i → i ≤ s.g_maxRotatedLogs.toNat →
        appendTo s.files s.g_outputFileName
          (markerBytes s.g_printed s.g_outputFileName c ++ chunkData c)
          (rotatedName s.g_outputFileName i) = none := by
      intro i h1 h2
      simp only [appendTo, rotatedName_ne_self, if_false]
      exact hJ i h1 h2
    refine ⟨?_, 1, hrot, ?_⟩
    · rw [hfiles, familyStream_reopenedShift _ _ _ _ hden, familyStream_appendTo]
      rcases hk with h0 | hlt
      · exact Or.inl h0
      · exact Or.inr (happ _ hlt (Nat.le_refl _))
    · intro i h1 h2
      rw [hfiles]
      obtain ⟨j, rfl⟩ : ∃ j, i = j + 1 := ⟨i - 1, by omega⟩
      have hs := shiftLogs_slot s.g_outputFileName c.renameDenied hden
        s.g_maxRotatedLogs.toNat
        (appendTo s.files s.g_outputFileName
          (markerBytes s.g_printed s.g_outputFileName c ++ chunkData c)) (j + 1) (by omega) h2
      rw [← rotatedName_eq_slot] at hs
      simp only [reopenedShift, rotatedName_ne_self, if_false, hs, Nat.add_sub_cancel]
      have hsrc : appendTo s.files s.g_outputFileName
          (markerBytes s.g_printed s.g_outputFileName c ++ chunkData c)
          (slot s.g_outputFileName j) = none := by
        obtain ⟨j0, rfl⟩ : ∃ j0, j = j0 + 1 := ⟨j - 1, by omega⟩
        rw [← rotatedName_eq_slot]
        exact happ _ (by omega) (by omega)
      rw [hsrc]
      by_cases htop : j + 1 = s.g_maxRotatedLogs.toNat
      · simp only [htop, if_true]
        rw [← htop]
        exact happ _ (by omega) (by omega)
      · simp only [htop, if_false]
  · rw [if_neg hcond] at hfiles hsum
    have hrot : rotations s1.trace = rotations s.trace + 0 := by
      rw [hsum.1, rotations_append, rotations_append, rotations_markerEvents]
      rfl
    refine ⟨?_, 0, hrot, ?_⟩
    · rw [hfiles, familyStream_appendTo]
    · intro i h1 h2
      rw [hfiles]
      simp only [appendTo, rotatedName_ne_self, if_false]
      exact hJ i (by omega) h2

theorem runLoop_split (a b : List Cycle) : ∀ (s : State),
    runLoop s (a ++ b) =
      match runLoop s a with
      | .running s1 => runLoop s1 b
      | o => o := by
  induction a with
  | nil => intro s; rfl
  | cons c rest ih =>
    intro s
    simp only [List.cons_append, runLoop]
    cases h : loopBody s c with
    | running s1 => exact ih s1
    | exited code st => rfl
    | retrying st => rfl

/-- Along a run the output descriptor stays on the active file and the flag
`g_printed` records whether a chunk was read. -/
theorem runLoop_sink (cs : List Cycle) : ∀ (s s1 : State),
    s.g_outputFileName.length ≠ 0 → s.g_outFD = Fd.file s.g_outputFileName →
    runLoop s cs = .running s1 →
    s1.g_outFD = Fd.file s.g_outputFileName ∧
    s1.g_printed = (s.g_printed || cs.any readsChunk) ∧
    rotations s.trace ≤ rotations s1.trace := by
  induction cs with
  | nil =>
    intro s s1 _ hfd h
    simp only [runLoop] at h
    cases h
    exact ⟨hfd, by simp, Nat.le_refl _⟩
  | cons c rest ih =>
    intro s s1 hname hfd h
    simp only [runLoop] at h
    cases hbody : loopBody s c with
    | exited code st => rw [hbody] at h; cases h
    | retrying st => rw [hbody] at h; cases h
    | running s2 =>
      rw [hbody] at h
      simp only at h
      cases hc : readsChunk c with
      | false =>
        rcases loopBody_running_inv s s2 c hbody with ⟨-, -, rfl⟩ | ⟨h0, -⟩
        · obtain ⟨i1, i2, i3⟩ := ih s2 s1 hname hfd h
          exact ⟨i1, by simp [i2, hc], i3⟩
        · rw [hc] at h0; cases h0
      | true =>
        obtain ⟨k1, -, -, k4, -, hsum⟩ := loopBody_chunk s s2 c hbody hc
        obtain ⟨f1, -⟩ := loopBody_chunk_files s s2 c hbody hc hfd hname
        obtain ⟨i1, i2, i3⟩ := ih s2 s1 (by rw [k1]; exact hname) (by rw [k1]; exact f1) h
        refine ⟨by rw [i1, k1], by simp [i2, k4, hc], ?_⟩
        have : rotations s.trace ≤ rotations s2.trace := by
          split at hsum
          · rw [hsum.1, rotations_append, rotations_append]; omega
          · rw [hsum.1, rotations_append, rotations_append]; omega
        omega

/-- The stream of the family after a run in which no rotation found the top
slot occupied: the stream before, then the bytes written, in order. -/
theorem runLoop_stream (cs : List Cycle) : ∀ (s s1 : State) (k : Nat),
    s.g_outputFileName.length ≠ 0 → s.g_outFD = Fd.file s.g_outputFileName →
    (∀ c ∈ cs, ∀ i, c.renameDenied i = false) →
    (∀ i, k < i → i ≤ s.g_maxRotatedLogs.toNat →
      s.files (rotatedName s.g_outputFileName i) = none) →
    runLoop s cs = .running s1 →
    (s.g_maxRotatedLogs.toNat = 0 ∨
      rotations s1.trace + k ≤ rotations s.trace + s.g_maxRotatedLogs.toNat) →
    familyStream s1.files s.g_outputFileName s.g_maxRotatedLogs.toNat
      = familyStream s.files s.g_outputFileName s.g_maxRotatedLogs.toNat
        ++ emitted s.g_outputFileName s.g_printed cs := by
  induction cs with
  | nil =>
    intro s s1 k _ _ _ _ h _
    simp only [runLoop] at h
    cases h
    simp [emitted]
  | cons c rest ih =>
    intro s s1 k hname hfd hden hJ h hroom
    simp only [runLoop] at h
    cases hbody : loopBody s c with
    | exited code st => rw [hbody] at h; cases h
    | retrying st => rw [hbody] at h; cases h
    | running s2 =>
      rw [hbody] at h
      simp only at h
      have hden2 : ∀ x ∈ rest, ∀ i, x.renameDenied i = false :=
        fun x hx => hden x (List.mem_cons_of_mem _ hx)
      cases hc : readsChunk c with
      | false =>
        rcases loopBody_running_inv s s2 c hbody with ⟨-, -, rfl⟩ | ⟨h0, -⟩
        · rw [ih s2 s1 k hname hfd hden2 hJ h hroom]
          simp [emitted, hc]
        · rw [hc] at h0; cases h0
      | true =>
        obtain ⟨k1, -, k3, k4, -, -⟩ := loopBody_chunk s s2 c hbody hc
        obtain ⟨f1, -⟩ := loopBody_chunk_files s s2 c hbody hc hfd hname
        have hname2 : s2.g_outputFileName.length ≠ 0 := by rw [k1]; exact hname
        have hfd2 : s2.g_outFD = Fd.file s2.g_outputFileName := by rw [k1]; exact f1
        obtain ⟨-, -, hmono⟩ := runLoop_sink rest s2 s1 hname2 hfd2 h
        obtain ⟨hst, r, hr, hJ2⟩ := loopBody_chunk_stream s s2 c k hbody hc hfd hname
          (hden c (List.mem_cons_self _ _)) hJ
          (by
            intro hlt
            rcases hroom with h0 | hle
            · exact Or.inl h0
            · exact Or.inr (by omega))
        have := ih s2 s1 (k + r) hname2 hfd2 hden2
          (by rw [k1, k3]; exact hJ2) h
          (by
            rw [k3]
            rcases hroom with h0 | hle
            · exact Or.inl h0
            · exact Or.inr (by omega))
        rw [k1, k3, k4] at this
        rw [this, hst]
        simp [emitted, hc, List.append_assoc]

theorem emitted_printed (name : String) (cs : List Cycle) :
    emitted name true cs = allChunkData cs := by
  induction cs with
  | nil => rfl
  | cons c rest ih =>
    cases hc : readsChunk c <;> simp [emitted, allChunkData, hc, markerBytes, ih]

theorem emitted_start (name : String) (cs : List Cycle) :
    emitted name false cs =
      (match cs.find? readsChunk with
        | some c1 => markerBytes false name c1
        | none => []) ++ allChunkData cs := by
  induction cs with
  | nil => rfl
  | cons c rest ih =>
    cases hc : readsChunk c with
    | false => simp [emitted, allChunkData, hc, ih]
    | true => simp [emitted, allChunkData, hc, emitted_printed]

theorem startBanner_text (name : String) (h : name.length ≤ 127) :
    startBanner name = "\n--------- beginning of ".toList ++ name.toList ++ ['\n'] := by
  unfold startBanner
  have e : ("\n--------- beginning of " ++ name ++ "\n").toList
      = "\n--------- beginning of ".toList ++ name.toList ++ ['\n'] := by
    simp [String.toList, String.data_append]
  rw [e]
  apply List.take_of_length_le
  have h24 : "\n--------- beginning of ".toList.length = 24 := by decide
  have hn : name.toList.length = name.length := rfl
  simp only [List.length_append, h24, hn, List.length_singleton]
  omega

/-- The calls of a run from program start. -/
theorem runLoop_start_calls (cs : List Cycle) : ∀ (s0 s : State),
    s0.g_printed = false → s0.trace = [] → runLoop s0 cs = .running s →
    ((∀ c ∈ cs, readsChunk c = false) → s = s0) ∧
    (∀ c1, cs.find? readsChunk = some c1 →
      ∃ rest, s.trace = Event.startMarker (markerBytes false s0.g_outputFileName c1)
          :: Event.chunk (chunkData c1) :: rest ∧
        ∀ b, Event.startMarker b ∉ rest) := by
  induction cs with
  | nil =>
    intro s0 s _ _ h
    simp only [runLoop] at h
    cases h
    exact ⟨fun _ => rfl, fun c1 h1 => by simp at h1⟩
  | cons c rest ih =>
    intro s0 s hp ht h
    simp only [runLoop] at h
    cases hbody : loopBody s0 c with
    | exited code st => rw [hbody] at h; cases h
    | retrying st => rw [hbody] at h; cases h
    | running s2 =>
      rw [hbody] at h
      simp only at h
      cases hc : readsChunk c with
      | false =>
        rcases loopBody_running_inv s0 s2 c hbody with ⟨-, -, rfl⟩ | ⟨h0, -⟩
        · obtain ⟨i1, i2⟩ := ih s2 s hp ht h
          refine ⟨fun hall => i1 (fun x hx => hall x (List.mem_cons_of_mem _ hx)), ?_⟩
          intro c1 h1
          rw [List.find?_cons_of_neg _ (by simp [hc])] at h1
          exact i2 c1 h1
        · rw [hc] at h0; cases h0
      | true =>
        refine ⟨fun hall => ?_, fun c1 h1 => ?_⟩
        · have := hall c (List.mem_cons_self _ _)
          rw [hc] at this; cases this
        · rw [List.find?_cons_of_pos _ hc] at h1
          cases h1
          obtain ⟨-, -, -, k4, -, hsum⟩ := loopBody_chunk s0 s2 c hbody hc
          obtain ⟨ext, e1, n1⟩ := runLoop_printed rest s2 s k4 h
          have hmk : markerEvents s0 c
              = [Event.startMarker (markerBytes false s0.g_outputFileName c)] := by
            simp [markerEvents, markerBytes, hp]
          rw [hmk, ht] at hsum
          split at hsum
          · refine ⟨Event.rotateLogs :: ext, ?_, ?_⟩
            · rw [e1, hsum.1]; simp
            · intro b hb
              rcases List.mem_cons.1 hb with hb | hb
              · cases hb
              · exact n1 b hb
          · refine ⟨ext, ?_, n1⟩
            rw [e1, hsum.1]; simp

/-- Every chunk pass of a run appends to the active file the banner bytes, if
no earlier pass read a chunk, and then its chunk bytes. -/
theorem runLoop_pass_files (s0 s : State) (pre post : List Cycle) (c : Cycle)
    (hname : s0.g_outputFileName.length ≠ 0)
    (hfd : s0.g_outFD = Fd.file s0.g_outputFileName)
    (hrun : runLoop s0 (pre ++ c :: post) = .running s) (hc : readsChunk c = true) :
    ∃ sb sa, runLoop s0 pre = .running sb ∧ loopBody sb c = .running sa ∧
      runLoop sa post = .running s ∧
      sb.g_printed = (s0.g_printed || pre.any readsChunk) ∧
      (if 0 < s0.g_logRotateSizeKBytes ∧
            1024 * s0.g_logRotateSizeKBytes ≤ sb.g_outByteCount + bytesWritten c then
          sa.files = reopenedShift
            (appendTo sb.files s0.g_outputFileName
              (markerBytes sb.g_printed s0.g_outputFileName c ++ chunkData c))
            s0.g_outputFileName c.renameDenied s0.g_maxRotatedLogs.toNat
        else
          sa.files = appendTo sb.files s0.g_outputFileName
            (markerBytes sb.g_printed s0.g_outputFileName c ++ chunkData c)) := by
  rw [runLoop_split] at hrun
  cases hpre : runLoop s0 pre with
  | exited code st => rw [hpre] at hrun; cases hrun
  | retrying st => rw [hpre] at hrun; cases hrun
  | running sb =>
    rw [hpre] at hrun
    simp only [runLoop] at hrun
    cases hbody : loopBody sb c with
    | exited code st => rw [hbody] at hrun; cases hrun
    | retrying st => rw [hbody] at hrun; cases hrun
    | running sa =>
      rw [hbody] at hrun
      simp only at hrun
      obtain ⟨k1, k2, k3⟩ := runLoop_config pre s0 sb hpre
      obtain ⟨f1, f2, -⟩ := runLoop_sink pre s0 sb hname hfd hpre
      have hfiles := (loopBody_chunk_files sb sa c hbody hc (by rw [k1]; exact f1)
        (by rw [k1]; exact hname)).2
      rw [k1, k2, k3] at hfiles
      exact ⟨sb, sa, rfl, hbody, hrun, f2, hfiles⟩

/-- C5: in a run of the capture loop from program start (flag `g_printed`
clear, nothing written yet, output descriptor on the file of a non-empty name)
that is still running, whatever the read results and however many rotations.
If no pass read a chunk, the state is the initial one: nothing was written.
Otherwise, with `c1` the first pass that read a chunk: the banner write is the
very first call, the write of the bytes of `c1` follows it immediately, and no
banner write occurs among the later calls (chunk writes and rotations); the
bytes of the banner write are the banner, `"\n--------- beginning of <name>\n"`,
when the `write` accepted it whole.  In the files: every chunk pass appends to
the active file the banner bytes exactly when no earlier pass read a chunk,
followed by its chunk bytes (and then shifts the family if the threshold is
crossed); and as long as no rotation has dropped a file, the family read oldest
file first is the initial content, then the banner once, then the bytes of all
chunks in order. -/
theorem start_marker_once (s0 s : State) (cycles : List Cycle)
    (hp : s0.g_printed = false) (ht : s0.trace = [])
    (hname : s0.g_outputFileName.length ≠ 0)
    (hfd : s0.g_outFD = Fd.file s0.g_outputFileName)
    (hrun : runLoop s0 cycles = .running s) :
    ((∀ c ∈ cycles, readsChunk c = false) → s = s0) ∧
    (∀ c1, cycles.find? readsChunk = some c1 →
      (∃ rest, s.trace = Event.startMarker (markerBytes false s0.g_outputFileName c1)
          :: Event.chunk (chunkData c1) :: rest ∧
        ∀ b, Event.startMarker b ∉ rest) ∧
      (((startBanner s0.g_outputFileName).length : Int) ≤ c1.markerWrite →
        markerBytes false s0.g_outputFileName c1 = startBanner s0.g_outputFileName)) ∧
    (s0.g_outputFileName.length ≤ 127 →
      startBanner s0.g_outputFileName
        = "\n--------- beginning of ".toList ++ s0.g_outputFileName.toList ++ ['\n']) ∧
    (∀ pre c post, cycles = pre ++ c :: post → readsChunk c = true →
      ∃ sb sa, runLoop s0 pre = .running sb ∧ loopBody sb c = .running sa ∧
        runLoop sa post = .running s ∧
        (if 0 < s0.g_logRotateSizeKBytes ∧
              1024 * s0.g_logRotateSizeKBytes ≤ sb.g_outByteCount + bytesWritten c then
            sa.files = reopenedShift
              (appendTo sb.files s0.g_outputFileName
                (markerBytes (pre.any readsChunk) s0.g_outputFileName c ++ chunkData c))
              s0.g_outputFileName c.renameDenied s0.g_maxRotatedLogs.toNat
          else
            sa.files = appendTo sb.files s0.g_outputFileName
              (markerBytes (pre.any readsChunk) s0.g_outputFileName c ++ chunkData c))) ∧
    ((∀ i, 1 ≤ i → i ≤ s0.g_maxRotatedLogs.toNat →
        s0.files (rotatedName s0.g_outputFileName i) = none) →
      (∀ c ∈ cycles, ∀ i, c.renameDenied i = false) →
      (s0.g_maxRotatedLogs.toNat = 0 ∨ rotations s.trace ≤ s0.g_maxRotatedLogs.toNat) →
      familyStream s.files s0.g_outputFileName s0.g_maxRotatedLogs.toNat
        = (s0.files s0.g_outputFileName).getD []
          ++ (match cycles.find? readsChunk with
              | some c1 => markerBytes false s0.g_outputFileName c1
              | none => [])
          ++ allChunkData cycles) := by
  obtain ⟨a1, a2⟩ := runLoop_start_calls cycles s0 s hp ht hrun
  refine ⟨a1, ?_, startBanner_text _, ?_, ?_⟩
  · intro c1 h1
    refine ⟨a2 c1 h1, ?_⟩
    intro hfull
    simp only [markerBytes, Bool.false_eq_true, if_false]
    exact List.take_of_length_le (by omega)
  · intro pre c post hsplit hc
    subst hsplit
    obtain ⟨sb, sa, b1, b2, b3, b4, b5⟩ := runLoop_pass_files s0 s pre post c hname hfd hrun hc
    rw [hp, Bool.false_or] at b4
    rw [b4] at b5
    exact ⟨sb, sa, b1, b2, b3, b5⟩
  · intro hJ hden hroom
    have hst := runLoop_stream cycles s0 s 0 hname hfd hden
      (fun i h1 h2 => hJ i (by omega) h2) hrun
      (by
        rcases hroom with h0 | hle
        · exact Or.inl h0
        · refine Or.inr ?_
          have h0 : rotations ([] : List Event) = 0 := rfl
          rw [ht, h0]
          omega)
    rw [hst, hp, emitted_start, familyStream_noHistory _ _ _ hJ, List.append_assoc]

set_option maxRecDepth 100000 in
/-- Witness of C5: an end-of-file pass, a pass of 1024 bytes that crosses the
threshold and rotates, then a pass of four bytes, from `-f k -r 1 -n 2` with
only the empty active file; the family then streams as the banner followed by
the 1028 chunk bytes. -/
theorem start_marker_once_witness :
    scenarioReady.g_printed = false ∧ scenarioReady.trace = [] ∧
    scenarioReady.g_outputFileName.length ≠ 0 ∧
    scenarioReady.g_outFD = Fd.file scenarioReady.g_outputFileName ∧
    runLoop scenarioReady markerRun = .running (runLoop scenarioReady markerRun).state ∧
    rotations (runLoop scenarioReady markerRun).state.trace = 1 ∧
    familyStream (runLoop scenarioReady markerRun).state.files scenarioReady.g_outputFileName
        scenarioReady.g_maxRotatedLogs.toNat
      = (scenarioReady.files scenarioReady.g_outputFileName).getD []
        ++ (match markerRun.find? readsChunk with
            | some c1 => markerBytes false scenarioReady.g_outputFileName c1
            | none => [])
        ++ allChunkData markerRun :=
  ⟨rfl, rfl, by decide, rfl, rfl, by decide,
    (start_marker_once scenarioReady (runLoop scenarioReady markerRun).state markerRun
      rfl rfl (by decide) rfl rfl).2.2.2.2
      (fun i h1 h2 => by
        have h3 : i = 1 ∨ i = 2 := by
          have : i ≤ 2 := h2
          omega
        rcases h3 with rfl | rfl <;> decide)
      (fun c hc i => by
        simp only [markerRun, List.mem_cons, List.mem_singleton, List.not_mem_nil,
          or_false] at hc
        rcases hc with rfl | rfl | rfl <;> rfl)
      (Or.inr (by decide))⟩

/-! ## The end-to-end scenario -/

theorem loopBody_okCycle (s : State) (b : Bytes) (n : Nat) (hn : 0 < n) (hb : b.length = n)
    (hfd : s.g_outFD = Fd.file s.g_outputFileName) :
    loopBody s (okCycle s.g_outputFileName b n n)
      = rotateIfDue (afterOk s b n) (fun _ => false) true := by
  have hn1 : ¬ ((n : Int) < 0) := by omega
  have hn2 : ¬ ((n : Int) = 0) := by omega
  have hl : ¬ (((startBanner s.g_outputFileName).length : Int) < 0) := by omega
  have ht : List.take n b = b := List.take_of_length_le (by omega)
  unfold loopBody
  cases hp : s.g_printed with
  | true =>
    simp only [okCycle, FAILURE_RETRY, maybe_print_start, hp, hn1, hn2, if_false, chmodStep,
      if_true, writeChunk, hfd, sysWrite, Int.toNat_ofNat, ht, afterOk, markerEvents,
      Bool.true_eq_false, List.append_nil, and_false]
    simp [hn1, Nat.pos_iff_ne_zero.1 hn, ht]
  | false =>
    simp only [okCycle, FAILURE_RETRY, maybe_print_start, hp, hn1, hn2, hl, if_false, chmodStep,
      if_true, writeChunk, hfd, sysWrite, Int.toNat_ofNat, ht, afterOk, markerEvents,
      Bool.false_eq_true, List.take_length, and_false]
    simp only [hn1, Nat.pos_iff_ne_zero.1 hn, ht, Nat.cast_eq_zero, if_false, List.append_assoc,
      List.cons_append, List.nil_append, Option.getD_some]
    congr 2
    funext p
    by_cases h : p = s.g_outputFileName <;> simp [h]


theorem okPass_noRotate (s : State) (b : Bytes) (hb : b.length = 400)
    (hfd : s.g_outFD = Fd.file s.g_outputFileName)
    (hlt : ¬ (0 < s.g_logRotateSizeKBytes ∧
      1024 * s.g_logRotateSizeKBytes ≤ s.g_outByteCount + 400)) :
    loopBody s (okCycle s.g_outputFileName b 400 400) = .running (afterOk s b 400) := by
  have h := loopBody_okCycle s b 400 (by decide) hb hfd
  simp only [Nat.cast_ofNat] at h
  rw [h, rotateIfDue_eq, if_neg]
  simpa [afterOk] using hlt

theorem okPass_rotate (s : State) (b : Bytes) (hb : b.length = 400)
    (hfd : s.g_outFD = Fd.file s.g_outputFileName)
    (hge : 0 < s.g_logRotateSizeKBytes ∧
      1024 * s.g_logRotateSizeKBytes ≤ s.g_outByteCount + 400) :
    loopBody s (okCycle s.g_outputFileName b 400 400)
      = rotateLogs (afterOk s b 400) (fun _ => false) true := by
  have h := loopBody_okCycle s b 400 (by decide) hb hfd
  simp only [Nat.cast_ofNat] at h
  rw [h, rotateIfDue_eq, if_pos]
  simpa [afterOk] using hge

/-- The end-to-end scenario evaluated on the code: threshold 1 KB, retention
2, only an empty active file at start, four 400-byte chunks each read and
written in full. -/
theorem scenario_run (name : String) (files : Files) (b1 b2 b3 b4 : Bytes)
    (hname : name.length ≠ 0)
    (hactive : files name = some [])
    (h1 : files (rotatedName name 1) = none) (h2 : files (rotatedName name 2) = none)
    (l1 : b1.length = 400) (l2 : b2.length = 400) (l3 : b3.length = 400) (l4 : b4.length = 400) :
    ∃ s, klogcat (initState name 1 2 files) true true
        [okCycle name b1 400 400, okCycle name b2 400 400, okCycle name b3 400 400,
          okCycle name b4 400 400] = .running s ∧
      s.trace = [Event.startMarker (startBanner name), Event.chunk b1, Event.chunk b2,
        Event.chunk b3, Event.rotateLogs, Event.chunk b4] ∧
      s.files name = some b4 ∧
      s.files (rotatedName name 1) = some (startBanner name ++ b1 ++ b2 ++ b3) ∧
      s.files (rotatedName name 2) = none ∧
      s.g_outByteCount = 400 := by
  have e12 : rotatedName name 1 ≠ rotatedName name 2 := fun h => by
    have := rotatedName_inj h; omega
  have e21 : rotatedName name 2 ≠ rotatedName name 1 := fun h => e12 h.symm
  have e10 : rotatedName name 1 ≠ name := rotatedName_ne_self _ _
  have e20 : rotatedName name 2 ≠ name := rotatedName_ne_self _ _
  have e01 : name ≠ rotatedName name 1 := fun h => e10 h.symm
  have e02 : name ≠ rotatedName name 2 := fun h => e20 h.symm
  have q0 : setupOutput (initState name 1 2 files) true
      = .running (opened (initState name 1 2 files)) :=
    setupOutput_running (initState name 1 2 files) hname
  have q1 : loopBody (opened (initState name 1 2 files)) (okCycle name b1 400 400)
      = .running (afterOk (opened (initState name 1 2 files)) b1 400) :=
    okPass_noRotate (opened (initState name 1 2 files)) b1 l1 rfl
      (by simp [opened, initState, hactive, fileSize])
  have q2 : loopBody (afterOk (opened (initState name 1 2 files)) b1 400)
      (okCycle name b2 400 400)
      = .running (afterOk (afterOk (opened (initState name 1 2 files)) b1 400) b2 400) :=
    okPass_noRotate (afterOk (opened (initState name 1 2 files)) b1 400) b2 l2 rfl
      (by simp [opened, initState, hactive, fileSize, afterOk])
  have q3 : loopBody (afterOk (afterOk (opened (initState name 1 2 files)) b1 400) b2 400)
      (okCycle name b3 400 400)
      = .running (rotated (afterOk (afterOk (afterOk (opened (initState name 1 2 files))
          b1 400) b2 400) b3 400) (fun _ => false)) :=
    (okPass_rotate (afterOk (afterOk (opened (initState name 1 2 files)) b1 400) b2 400) b3 l3
      rfl (by simp [opened, initState, hactive, fileSize, afterOk])).trans
      (rotateLogs_running _ _ hname)
  have q4 : loopBody (rotated (afterOk (afterOk (afterOk (opened (initState name 1 2 files))
        b1 400) b2 400) b3 400) (fun _ => false)) (okCycle name b4 400 400)
      = .running (afterOk (rotated (afterOk (afterOk (afterOk
          (opened (initState name 1 2 files)) b1 400) b2 400) b3 400) (fun _ => false))
          b4 400) :=
    okPass_noRotate (rotated (afterOk (afterOk (afterOk (opened (initState name 1 2 files))
        b1 400) b2 400) b3 400) (fun _ => false)) b4 l4 rfl
      (by simp [rotated, opened, initState, afterOk])
  refine ⟨afterOk (rotated (afterOk (afterOk (afterOk (opened (initState name 1 2 files))
    b1 400) b2 400) b3 400) (fun _ => false)) b4 400, ?_, ?_⟩
  · unfold klogcat do_klogging_ksmg
    simp only [q0, if_true, runLoop, q1, q2, q3, q4]
  · simp [afterOk, rotated, opened, markerEvents, initState, hactive, shiftLogs, rename,
      sourceName, e12, e21, e10, e20, e01, e02, h1, h2, okCycle]

/-- C6, as the claim states it, fails: in the scenario run on the output name
`k`, the historical file `k.1` does not hold just the 1200 bytes of chunks 1-3;
it holds the start banner followed by the three chunks. -/
theorem scenario_history_holds_banner :
    (klogcat (initState "k" 1 2 scenarioFiles) true true
        [okCycle "k" (chunkOf 'a') 400 400, okCycle "k" (chunkOf 'b') 400 400,
          okCycle "k" (chunkOf 'c') 400 400, okCycle "k" (chunkOf 'd') 400 400]).state.files "k.1"
      = some (startBanner "k" ++ chunkOf 'a' ++ chunkOf 'b' ++ chunkOf 'c') ∧
    (klogcat (initState "k" 1 2 scenarioFiles) true true
        [okCycle "k" (chunkOf 'a') 400 400, okCycle "k" (chunkOf 'b') 400 400,
          okCycle "k" (chunkOf 'c') 400 400, okCycle "k" (chunkOf 'd') 400 400]).state.files "k.1"
      ≠ some (chunkOf 'a' ++ chunkOf 'b' ++ chunkOf 'c') := by
  obtain ⟨s, hs, -, -, hf, -, -⟩ := scenario_run "k" scenarioFiles (chunkOf 'a') (chunkOf 'b')
    (chunkOf 'c') (chunkOf 'd') (by decide) (by decide) (by decide) (by decide)
    (List.length_replicate _ _) (List.length_replicate _ _) (List.length_replicate _ _)
    (List.length_replicate _ _)
  have hn : rotatedName "k" 1 = "k.1" := by decide
  rw [hn] at hf
  rw [hs]
  refine ⟨hf, ?_⟩
  simp only [Outcome.state, hf]
  intro h
  have hlen := congrArg List.length (Option.some.inj h)
  have hb : (startBanner "k").length = 26 := by decide
  simp only [List.length_append, chunkOf, List.length_replicate, hb] at hlen
  omega

/-- C6 (amended): with threshold 1 KB, retention 2, a non-empty output name,
an empty active file and no historical file at start, four 400-byte chunks
each read and written in full leave the process running with exactly one
`rotateLogs` call, issued right after the write of the 3rd chunk (the calls
are: banner, chunk 1, chunk 2, chunk 3, `rotateLogs`, chunk 4); afterwards
the active file holds exactly chunk 4, `<name>.1` holds the start banner
followed by chunks 1-3, `<name>.2` does not exist and the counter is 400. -/
theorem scenario_four_chunks (name : String) (files : Files) (b1 b2 b3 b4 : Bytes)
    (hname : name.length ≠ 0)
    (hactive : files name = some [])
    (h1 : files (rotatedName name 1) = none) (h2 : files (rotatedName name 2) = none)
    (l1 : b1.length = 400) (l2 : b2.length = 400) (l3 : b3.length = 400) (l4 : b4.length = 400) :
    ∃ s, klogcat (initState name 1 2 files) true true
        [okCycle name b1 400 400, okCycle name b2 400 400, okCycle name b3 400 400,
          okCycle name b4 400 400] = .running s ∧
      s.trace = [Event.startMarker (startBanner name), Event.chunk b1, Event.chunk b2,
        Event.chunk b3, Event.rotateLogs, Event.chunk b4] ∧
      s.files name = some b4 ∧
      s.files (rotatedName name 1) = some (startBanner name ++ b1 ++ b2 ++ b3) ∧
      s.files (rotatedName name 2) = none ∧
      s.g_outByteCount = 400 :=
  scenario_run name files b1 b2 b3 b4 hname hactive h1 h2 l1 l2 l3 l4

/-- Witness of amended C6 on the output name `k`. -/
theorem scenario_four_chunks_witness :
    "k".length ≠ 0 ∧ scenarioFiles "k" = some [] ∧
    scenarioFiles (rotatedName "k" 1) = none ∧ scenarioFiles (rotatedName "k" 2) = none ∧
    (chunkOf 'a').length = 400 ∧ (chunkOf 'b').length = 400 ∧
    (chunkOf 'c').length = 400 ∧ (chunkOf 'd').length = 400 ∧
    ∃ s, klogcat (initState "k" 1 2 scenarioFiles) true true
        [okCycle "k" (chunkOf 'a') 400 400, okCycle "k" (chunkOf 'b') 400 400,
          okCycle "k" (chunkOf 'c') 400 400, okCycle "k" (chunkOf 'd') 400 400] = .running s ∧
      s.trace = [Event.startMarker (startBanner "k"), Event.chunk (chunkOf 'a'),
        Event.chunk (chunkOf 'b'), Event.chunk (chunkOf 'c'), Event.rotateLogs,
        Event.chunk (chunkOf 'd')] ∧
      s.files "k" = some (chunkOf 'd') ∧
      s.files (rotatedName "k" 1)
        = some (startBanner "k" ++ chunkOf 'a' ++ chunkOf 'b' ++ chunkOf 'c') ∧
      s.files (rotatedName "k" 2) = none ∧
      s.g_outByteCount = 400 :=
  ⟨by decide, by decide, by decide, by decide, List.length_replicate _ _,
    List.length_replicate _ _, List.length_replicate _ _, List.length_replicate _ _,
    scenario_four_chunks "k" scenarioFiles (chunkOf 'a') (chunkOf 'b') (chunkOf 'c')
      (chunkOf 'd') (by decide) (by decide) (by decide) (by decide)
      (List.length_replicate _ _) (List.length_replicate _ _) (List.length_replicate _ _)
      (List.length_replicate _ _)⟩

/-! ## Crossing the threshold with retention count 0 -/

theorem okPass_crosses (s : State) (b : Bytes) (n : Nat) (hn : 0 < n) (hb : b.length = n)
    (hfd : s.g_outFD = Fd.file s.g_outputFileName)
    (hge : 0 < s.g_logRotateSizeKBytes ∧
      1024 * s.g_logRotateSizeKBytes ≤ s.g_outByteCount + n) :
    loopBody s (okCycle s.g_outputFileName b n n)
      = rotateLogs (afterOk s b n) (fun _ => false) true := by
  rw [loopBody_okCycle s b n hn hb hfd, rotateIfDue_eq, if_pos]
  simpa [afterOk] using hge

/-- C4 (evaluation of the code where it departs from the claim): with
threshold 1 KB and retention count 0, from an empty active file, a chunk of
1024 bytes brings the counter to `1024 * T`; that pass calls `rotateLogs` once
and the counter restarts at 0, but the chunk written after the crossing does
not land in a new file: it is appended to the same active file, behind the
banner and the first chunk, and no other file changes. -/
theorem zero_retention_crossing_same_file (name : String) (files : Files) (b1 b2 : Bytes)
    (hname : name.length ≠ 0) (hactive : files name = some [])
    (l1 : b1.length = 1024) (l2 : b2.length = 400) :
    ∃ s, klogcat (initState name 1 0 files) true true
        [okCycle name b1 1024 1024, okCycle name b2 400 400] = .running s ∧
      s.trace = [Event.startMarker (startBanner name), Event.chunk b1, Event.rotateLogs,
        Event.chunk b2] ∧
      s.files name = some (startBanner name ++ b1 ++ b2) ∧
      s.g_outByteCount = 400 ∧
      (∀ p, p ≠ name → s.files p = files p) := by
  have q0 : setupOutput (initState name 1 0 files) true
      = .running (opened (initState name 1 0 files)) :=
    setupOutput_running (initState name 1 0 files) hname
  have q1 : loopBody (opened (initState name 1 0 files)) (okCycle name b1 1024 1024)
      = .running (rotated (afterOk (opened (initState name 1 0 files)) b1 1024)
          (fun _ => false)) :=
    (okPass_crosses (opened (initState name 1 0 files)) b1 1024 (by decide) l1 rfl
      (by simp [opened, initState, hactive, fileSize])).trans
      (rotateLogs_running _ _ hname)
  have q2 : loopBody (rotated (afterOk (opened (initState name 1 0 files)) b1 1024)
        (fun _ => false)) (okCycle name b2 400 400)
      = .running (afterOk (rotated (afterOk (opened (initState name 1 0 files)) b1 1024)
          (fun _ => false)) b2 400) :=
    okPass_noRotate (rotated (afterOk (opened (initState name 1 0 files)) b1 1024)
        (fun _ => false)) b2 l2 rfl
      (by simp [rotated, opened, initState, afterOk])
  refine ⟨afterOk (rotated (afterOk (opened (initState name 1 0 files)) b1 1024)
    (fun _ => false)) b2 400, ?_, ?_, ?_, ?_, ?_⟩
  · unfold klogcat do_klogging_ksmg
    simp only [q0, if_true, runLoop, q1, q2]
  · simp [afterOk, rotated, opened, markerEvents, initState, okCycle]
  · simp [afterOk, rotated, opened, initState, hactive, shiftLogs]
  · simp [afterOk, rotated, opened, initState]
  · intro p hp
    simp [afterOk, rotated, opened, initState, shiftLogs, hp]

/-- Witness of the C4 evaluation on the output name `k`. -/
theorem zero_retention_crossing_same_file_witness :
    "k".length ≠ 0 ∧ scenarioFiles "k" = some [] ∧
    (List.replicate 1024 'x').length = 1024 ∧ (chunkOf 'a').length = 400 ∧
    ∃ s, klogcat (initState "k" 1 0 scenarioFiles) true true
        [okCycle "k" (List.replicate 1024 'x') 1024 1024, okCycle "k" (chunkOf 'a') 400 400]
          = .running s ∧
      s.trace = [Event.startMarker (startBanner "k"), Event.chunk (List.replicate 1024 'x'),
        Event.rotateLogs, Event.chunk (chunkOf 'a')] ∧
      s.files "k" = some (startBanner "k" ++ List.replicate 1024 'x' ++ chunkOf 'a') ∧
      s.g_outByteCount = 400 ∧
      (∀ p, p ≠ "k" → s.files p = scenarioFiles p) :=
  ⟨by decide, by decide, List.length_replicate _ _, List.length_replicate _ _,
    zero_retention_crossing_same_file "k" scenarioFiles (List.replicate 1024 'x') (chunkOf 'a')
      (by decide) (by decide) (List.length_replicate _ _) (List.length_replicate _ _)⟩

end Klogcat
